import Mathlib

/-!
Shallow embedding of the Bitsafe balance-ledger and settlement server
(`src/server/index.js`).  The SQLite tables become association lists, SQL
`UPDATE ... WHERE` statements become list maps over the matching rows, and
each HTTP endpoint relevant to the claims becomes a pure function from the
request and the store state to a response and a new store state.

Amounts are modelled as rationals (the source stores REAL columns; claims
are about exact arithmetic identities, so ℚ is the faithful carrier).
Fields that no claim touches (timestamps, password hashes, proof images)
are omitted.  `parseFloat` results that can be `NaN` are modelled as
`Option ℚ` with `none` playing the role of `NaN`/undefined.
-/

/-- One per-user trade tier from the JSON-encoded `trade_settings` column:
a duration in seconds and a payout percent (`none` models a percent that
`parseFloat` cannot parse, i.e. `NaN`). -/
structure Tier where
  seconds : ℚ
  percent : Option ℚ
deriving DecidableEq, Repr

/-- A row of the `users` table: legacy scalar balance, account status,
`min_trade_amount` (`none` models SQL NULL) and the parsed
`trade_settings` list. -/
structure UserRec where
  balance : ℚ
  status : String
  minTradeAmount : Option ℚ
  tradeSettings : List Tier
deriving DecidableEq, Repr

/-- A row of the `trades` table. -/
structure TradeRec where
  username : String
  symbol : String
  side : String
  amount : ℚ
  profit : ℚ
  result : String
deriving DecidableEq, Repr

/-- A row of the `withdrawals` table. -/
structure WithdrawalRec where
  wid : Nat
  username : String
  currency : String
  network : String
  amount : ℚ
  address : String
  status : String
deriving DecidableEq, Repr

/-- A row of the `deposits` table. -/
structure DepositRec where
  did : Nat
  username : String
  currency : String
  network : String
  amount : ℚ
  status : String
deriving DecidableEq, Repr

/-- The store state: the `users` table keyed by username, the
`user_balances` table keyed by `(username, currency)` (UNIQUE in the
schema), the `trades`, `deposits` and `withdrawals` tables, the
process-wide `ADMIN_WIN_SIDE` variable, and the next AUTOINCREMENT ids
for withdrawals and deposits. -/
structure St where
  users : List (String × UserRec)
  balances : List ((String × String) × ℚ)
  trades : List TradeRec
  deposits : List DepositRec
  withdrawals : List WithdrawalRec
  winSide : String
  nextWid : Nat
  nextDid : Nat
deriving DecidableEq, Repr

/-- First value bound to a key in an association list (a `SELECT ... WHERE
key = ?` returning at most one row under the schema's uniqueness). -/
def lookupA {α β : Type} [DecidableEq α] (l : List (α × β)) (k : α) : Option β :=
  (l.find? (fun p => decide (p.1 = k))).map (fun p => p.2)

/-- Apply `f` to every value bound to key `k` (an SQL
`UPDATE ... SET v = f v WHERE key = k`). -/
def updAssoc {α β : Type} [DecidableEq α] (l : List (α × β)) (k : α) (f : β → β) :
    List (α × β) :=
  l.map (fun p => if p.1 = k then (k, f p.2) else p)

/-- `SELECT * FROM users WHERE username=?`. -/
def getUser (s : St) (u : String) : Option UserRec :=
  lookupA s.users u

/-- `SELECT amount FROM user_balances WHERE username=? AND currency=?`. -/
def getBal (s : St) (u c : String) : Option ℚ :=
  lookupA s.balances (u, c)

/-- `UPDATE users SET balance = balance + d WHERE username=?` (a no-op when
the user row is absent, exactly like the SQL). -/
def updLegacy (s : St) (u : String) (d : ℚ) : St :=
  { s with users := updAssoc s.users u (fun x => { x with balance := x.balance + d }) }

/-- `UPDATE user_balances SET amount = amount + d WHERE username=? AND
currency=?` (a no-op when no row matches). -/
def updEntry (s : St) (u c : String) (d : ℚ) : St :=
  { s with balances := updAssoc s.balances (u, c) (fun b => b + d) }

/-- `UPDATE user_balances SET amount = amount - d WHERE username=? AND
currency=? AND amount >= d`: the convert endpoint's best-effort USDT
mirror sync, which only subtracts from a matching row whose amount is at
least `d`. -/
def updEntryCond (s : St) (u c : String) (d : ℚ) : St :=
  { s with balances := updAssoc s.balances (u, c) (fun b => if d ≤ b then b - d else b) }

/-- `INSERT INTO user_balances VALUES (u, c, v) ON CONFLICT(username,
currency) DO UPDATE SET amount = amount + v` (also the SELECT-then-
UPDATE-or-INSERT upsert of the admin add-coin-balance endpoint). -/
def upsertEntry (s : St) (u c : String) (v : ℚ) : St :=
  if (lookupA s.balances (u, c)).isSome then updEntry s u c v
  else { s with balances := s.balances ++ [((u, c), v)] }

/-- `INSERT INTO trades ...`. -/
def appendTrade (s : St) (r : TradeRec) : St :=
  { s with trades := s.trades ++ [r] }

/-- Run a list of row mutations left to right. -/
def applyWrites (s : St) (ws : List (St → St)) : St :=
  ws.foldl (fun t f => f t) s

/-- The hard-coded fallback price table of `getPrices` in the source. -/
def pricesFallback : List (String × ℚ) :=
  [("BTC", 95000), ("ETH", 3600), ("BNB", 600), ("SOL", 150), ("USDT", 1)]

/-- `prices[c]` on the map returned by `getPrices`. -/
def priceOf (prices : List (String × ℚ)) (c : String) : Option ℚ :=
  lookupA prices c

/-- Truthiness of `user.status === 'frozen'` (a missing user row passes
the gate, as in the source). -/
def isFrozen (s : St) (u : String) : Bool :=
  match getUser s u with
  | some x => decide (x.status = "frozen")
  | none => false

/-- The availability rule of spec section 4.2, which is exactly what the
balance checks in the convert endpoint read: for the primary currency the
legacy scalar (0 when the user row is absent), for every other currency
the per-currency entry (0 when absent). -/
def avail (s : St) (u c : String) : ℚ :=
  if c = "USDT" then
    match getUser s u with
    | some x => x.balance
    | none => 0
  else (getBal s u c).getD 0

/- ======================= POST /api/convert ======================= -/

/-- Body of a convert request; `toCurrency` is optional in the source
(`if (!toCurrency) toCurrency = 'USDT'`), `none` models an omitted field
and `some ""` an empty (falsy) one. -/
structure ConvertReq where
  fromCurrency : String
  toCurrency : Option String
  amount : ℚ
deriving DecidableEq, Repr

/-- Responses of the convert endpoint. -/
inductive ConvertRes
  | invalidParams
  | sameCurrency
  | priceUnavailable (c : String)
  | insufficient
  | serverError
  | ok (convertedAmount rate : ℚ)
deriving DecidableEq, Repr

/-- The `if (!toCurrency) toCurrency = 'USDT'` default. -/
def resolveTo : Option String → String
  | none => "USDT"
  | some c => if c = "" then "USDT" else c

/-- The balance check of the convert endpoint: for USDT the legacy
`users.balance` (`!user || user.balance < amount` fails), otherwise the
`user_balances` row (`!balanceRow || balanceRow.amount < amount` fails). -/
def sufficientFrom (s : St) (u fc : String) (amt : ℚ) : Bool :=
  if fc = "USDT" then
    match getUser s u with
    | some x => decide (amt ≤ x.balance)
    | none => false
  else
    match getBal s u fc with
    | some b => decide (amt ≤ b)
    | none => false

/-- The ordered list of row mutations the convert endpoint issues between
BEGIN TRANSACTION and COMMIT: deduct the source (for USDT the legacy
scalar plus the conditional mirror sync), credit the target (for USDT the
legacy scalar plus the mirror upsert), then insert the trade record. -/
def convertWrites (username fc toC : String) (amt target : ℚ) : List (St → St) :=
  (if fc = "USDT" then
    [fun s => updLegacy s username (-amt), fun s => updEntryCond s username "USDT" amt]
  else
    [fun s => updEntry s username fc (-amt)]) ++
  (if toC = "USDT" then
    [fun s => updLegacy s username target, fun s => upsertEntry s username "USDT" target]
  else
    [fun s => upsertEntry s username toC target]) ++
  [fun s => appendTrade s
    { username := username, symbol := fc ++ "-" ++ toC, side := "convert",
      amount := amt, profit := target, result := "win" }]

/-- `POST /api/convert`.  `failAt = some k` injects a thrown error at the
k-th mutation inside the transaction; the catch block runs ROLLBACK, so a
failure restores the state at BEGIN (which no read before it had
mutated). -/
def convert (prices : List (String × ℚ)) (username : String) (req : ConvertReq)
    (failAt : Option Nat) (s : St) : ConvertRes × St :=
  let toC := resolveTo req.toCurrency
  if req.fromCurrency = "" ∨ req.amount = 0 ∨ req.amount ≤ 0 then (.invalidParams, s)
  else if req.fromCurrency = toC then (.sameCurrency, s)
  else
    let pF := (priceOf prices req.fromCurrency).getD 0
    let pT := (priceOf prices toC).getD 0
    if pF = 0 then (.priceUnavailable req.fromCurrency, s)
    else if pT = 0 then (.priceUnavailable toC, s)
    else if sufficientFrom s username req.fromCurrency req.amount = false then
      (.insufficient, s)
    else
      let target := req.amount * pF / pT
      let ws := convertWrites username req.fromCurrency toC req.amount target
      match failAt with
      | some k => if k < ws.length then (.serverError, s)
                  else (.ok target (pF / pT), applyWrites s ws)
      | none => (.ok target (pF / pT), applyWrites s ws)

/- ======================= POST /api/withdraw ======================= -/

/-- Body of a withdraw request.  An omitted amount is falsy exactly like a
zero amount in `!amount`, so a plain ℚ with 0 for "missing" is faithful. -/
structure WithdrawReq where
  currency : String
  network : String
  amount : ℚ
  address : String
deriving DecidableEq, Repr

/-- Responses of the withdraw endpoint. -/
inductive WithdrawRes
  | frozen
  | missingFields
  | insufficient
  | serverError
  | pending (id : Nat)
deriving DecidableEq, Repr

/-- The deduction step of the withdraw endpoint: for USDT try the
`user_balances` row first and fall back to the legacy scalar, otherwise
require a sufficient `user_balances` row; `none` means `balanceDeducted`
stayed false and the endpoint rolls back with "Insufficient balance". -/
def withdrawDeduct (s : St) (username : String) (req : WithdrawReq) :
    Option (St → St) :=
  if req.currency = "USDT" then
    match getBal s username "USDT" with
    | some b =>
      if req.amount ≤ b then some (fun t => updEntry t username "USDT" (-req.amount))
      else
        match getUser s username with
        | some x =>
          if req.amount ≤ x.balance then some (fun t => updLegacy t username (-req.amount))
          else none
        | none => none
    | none =>
      match getUser s username with
      | some x =>
        if req.amount ≤ x.balance then some (fun t => updLegacy t username (-req.amount))
        else none
      | none => none
  else
    match getBal s username req.currency with
    | some b =>
      if req.amount ≤ b then some (fun t => updEntry t username req.currency (-req.amount))
      else none
    | none => none

/-- `INSERT INTO withdrawals ... VALUES (..., 'pending')` returning
`lastID`. -/
def insertWithdrawal (s : St) (username : String) (req : WithdrawReq) : Nat × St :=
  (s.nextWid,
   { s with
      withdrawals := s.withdrawals ++
        [{ wid := s.nextWid, username := username, currency := req.currency,
           network := req.network, amount := req.amount, address := req.address,
           status := "pending" }],
      nextWid := s.nextWid + 1 })

/-- `POST /api/withdraw`.  Both mutations (deduct, insert) sit inside one
transaction, so an injected failure (`failAt = some k`, `k < 2`) rolls
back to the incoming state. -/
def withdraw (username : String) (req : WithdrawReq) (failAt : Option Nat)
    (s : St) : WithdrawRes × St :=
  if isFrozen s username then (.frozen, s)
  else if req.currency = "" ∨ req.network = "" ∨ req.amount = 0 ∨ req.address = "" then
    (.missingFields, s)
  else
    match withdrawDeduct s username req with
    | none => (.insufficient, s)
    | some w =>
      match failAt with
      | some k =>
        if k < 2 then (.serverError, s)
        else
          let r := insertWithdrawal (w s) username req
          (.pending r.1, r.2)
      | none =>
        let r := insertWithdrawal (w s) username req
        (.pending r.1, r.2)

/- ======================= POST /api/deposit ======================= -/

/-- Body of a deposit request (the proof image is irrelevant to the
claims). -/
structure DepositReq where
  currency : String
  network : String
  amount : ℚ
deriving DecidableEq, Repr

/-- Responses of the deposit endpoint. -/
inductive DepositRes
  | frozen
  | pending (id : Nat)
deriving DecidableEq, Repr

/-- `POST /api/deposit`: after the frozen gate the record is inserted with
no validation of any field, in particular none of `amount`. -/
def deposit (username : String) (req : DepositReq) (s : St) : DepositRes × St :=
  if isFrozen s username then (.frozen, s)
  else
    (.pending s.nextDid,
     { s with
        deposits := s.deposits ++
          [{ did := s.nextDid, username := username, currency := req.currency,
             network := req.network, amount := req.amount, status := "pending" }],
        nextDid := s.nextDid + 1 })

/- ================= POST /api/deposit/:id/status ================= -/

/-- `UPDATE deposits SET status=? WHERE id=?`. -/
def depStatusMap (s : St) (did : Nat) (st : String) : St :=
  { s with deposits := s.deposits.map (fun d => if d.did = did then { d with status := st } else d) }

/-- `POST /api/deposit/:id/status`: unconditionally writes the new status,
then on "approved" re-reads the record and credits its amount to the
legacy scalar only (no `user_balances` write, no pending-status check). -/
def depositStatus (did : Nat) (status : String) (s : St) : St :=
  let s1 := depStatusMap s did status
  if status = "approved" then
    match s1.deposits.find? (fun d => decide (d.did = did)) with
    | some dep => updLegacy s1 dep.username dep.amount
    | none => s1
  else s1

/- ================= POST /api/withdraw/:id/status ================= -/

/-- `UPDATE withdrawals SET status=? WHERE id=?`. -/
def wdStatusMap (s : St) (wid : Nat) (st : String) : St :=
  { s with withdrawals := s.withdrawals.map (fun x => if x.wid = wid then { x with status := st } else x) }

/-- Responses of the withdrawal status endpoint. -/
inductive StatusRes
  | ok
  | invalidStatus
  | notFound
  | alreadyProcessed
deriving DecidableEq, Repr

/-- `POST /api/withdraw/:id/status`: only "approved"/"rejected" are legal,
the record must exist and still be pending; rejection refunds the amount
to the legacy scalar when the currency is USDT and upserts the
per-currency row otherwise; approval changes no balance. -/
def withdrawStatus (wid : Nat) (status : String) (s : St) : StatusRes × St :=
  if status ≠ "approved" ∧ status ≠ "rejected" then (.invalidStatus, s)
  else
    match s.withdrawals.find? (fun w => decide (w.wid = wid)) with
    | none => (.notFound, s)
    | some w =>
      if w.status ≠ "pending" then (.alreadyProcessed, s)
      else
        let s1 := wdStatusMap s wid status
        if status = "rejected" then
          if w.currency = "USDT" then (.ok, updLegacy s1 w.username w.amount)
          else (.ok, upsertEntry s1 w.username w.currency w.amount)
        else (.ok, s1)

/- ======================= POST /api/trade ======================= -/

/-- Body of a trade request, after the JS coercions: `amount` is
`parseFloat(body.amount)` with `none` for `NaN`; `seconds` is the raw
duration (`none` absent); `percent` is the caller percent under
`parseFloat` interpretation (`none` for absent or unparsable). -/
structure TradeReq where
  username : String
  symbol : String
  side : String
  amount : Option ℚ
  seconds : Option ℚ
  percent : Option ℚ
deriving DecidableEq, Repr

/-- Responses of the trade endpoint. -/
inductive TradeRes
  | userNotFound
  | belowMin
  | invalidAmount
  | tradeFailed
  | settled (result : String) (profit : ℚ)
deriving DecidableEq, Repr

/-- `user.min_trade_amount || 10`: NULL and 0 both fall back to 10. -/
def effectiveMin : Option ℚ → ℚ
  | none => 10
  | some m => if m = 0 then 10 else m

/-- `amount < minAmount` on a parsed float: `NaN < x` is false in JS, so a
`none` amount passes the minimum check and is caught only later by the
`isNaN` validation. -/
def amountBelow (amt : Option ℚ) (m : ℚ) : Bool :=
  match amt with
  | none => false
  | some a => decide (a < m)

/-- Truthiness of the raw `seconds` field in `if (seconds)`. -/
def secondsTruthy : Option ℚ → Bool
  | none => false
  | some q => decide (q ≠ 0)

/-- Payout-percent resolution of the trade endpoint: when `seconds` is
truthy and a tier matches, its percent replaces the caller percent; then
`if (!percent || isNaN(parseFloat(percent))) percent =
parseFloat(req.body.percent) || 0` makes a missing, unparsable or zero
value fall back to the caller percent (default 0). -/
def resolvePercent (user : UserRec) (req : TradeReq) : ℚ :=
  let p1 : Option ℚ :=
    if secondsTruthy req.seconds then
      match user.tradeSettings.find? (fun t => decide (t.seconds = req.seconds.getD 0)) with
      | some t => t.percent
      | none => req.percent
    else req.percent
  match p1 with
  | none => req.percent.getD 0
  | some q => if q = 0 then req.percent.getD 0 else q

/-- `POST /api/trade`.  The settlement issues the trades INSERT and the
balance UPDATE as two separate statements with no transaction around
them; `failAt = some 0` fails the INSERT (nothing applied), `failAt =
some 1` fails the UPDATE after the INSERT succeeded, and the catch block
returns 500 without any rollback, so the inserted record persists. -/
def trade (req : TradeReq) (failAt : Option Nat) (s : St) : TradeRes × St :=
  match getUser s req.username with
  | none => (.userNotFound, s)
  | some user =>
    if amountBelow req.amount (effectiveMin user.minTradeAmount) then (.belowMin, s)
    else
      let percent := resolvePercent user req
      match req.amount with
      | none => (.invalidAmount, s)
      | some a =>
        if a ≤ 0 then (.invalidAmount, s)
        else
          let win := req.side = s.winSide
          let profit := if win then a * (percent / 100) else -a
          let tr : TradeRec :=
            { username := req.username, symbol := req.symbol, side := req.side,
              amount := a, profit := profit,
              result := if win then "win" else "lose" }
          match failAt with
          | some 0 => (.tradeFailed, s)
          | some 1 => (.tradeFailed, appendTrade s tr)
          | _ => (.settled (if win then "win" else "lose") profit,
                  updLegacy (appendTrade s tr) req.username profit)

/- ================= ADMIN balance and winside ================= -/

/-- Responses of the admin add-coin-balance endpoint. -/
inductive AdminRes
  | missingFields
  | updated
deriving DecidableEq, Repr

/-- `POST /api/admin/users/add-coin-balance`: upsert the per-currency row,
and when the currency is USDT also add the amount to the legacy scalar. -/
def addCoinBalance (username currency : String) (amount : ℚ) (s : St) :
    AdminRes × St :=
  if username = "" ∨ currency = "" then (.missingFields, s)
  else
    let s1 := upsertEntry s username currency amount
    if currency = "USDT" then (.updated, updLegacy s1 username amount)
    else (.updated, s1)

/-- `POST /api/admin/winside`: overwrite the global outcome parameter. -/
def setWinSide (side : String) (s : St) : St :=
  { s with winSide := side }

/- ======================= Concrete fixtures ======================= -/

/-- A user record with the given legacy balance, active status, default
minimum and the given tiers. -/
def mkUser (b : ℚ) (tiers : List Tier) : UserRec :=
  { balance := b, status := "active", minTradeAmount := some 10, tradeSettings := tiers }

/-- An empty store with a single user "alice" holding legacy balance `b`,
the given per-currency rows, win side "long" and fresh ids starting at 1. -/
def mkSt (b : ℚ) (tiers : List Tier) (rows : List ((String × String) × ℚ)) : St :=
  { users := [("alice", mkUser b tiers)], balances := rows, trades := [],
    deposits := [], withdrawals := [], winSide := "long", nextWid := 1, nextDid := 1 }

/-- A store like `mkSt` with no tiers but with given pending deposits and
withdrawals. -/
def mkStFull (b : ℚ) (rows : List ((String × String) × ℚ))
    (deps : List DepositRec) (wds : List WithdrawalRec) : St :=
  { users := [("alice", mkUser b [])], balances := rows, trades := [],
    deposits := deps, withdrawals := wds, winSide := "long",
    nextWid := 1, nextDid := 2 }

/- ======================= Association-list lemmas ======================= -/

theorem lookupA_cons {α β : Type} [DecidableEq α] (p : α × β) (t : List (α × β)) (k : α) :
    lookupA (p :: t) k = if p.1 = k then some p.2 else lookupA t k := by
  by_cases h : p.1 = k
  · simp [lookupA, List.find?_cons_of_pos, h]
  · simp [lookupA, List.find?_cons_of_neg, h]

theorem lookupA_updAssoc_self {α β : Type} [DecidableEq α]
    (l : List (α × β)) (k : α) (f : β → β) :
    lookupA (updAssoc l k f) k = (lookupA l k).map f := by
  induction l with
  | nil => rfl
  | cons p t ih =>
    by_cases h : p.1 = k
    · simp [updAssoc, lookupA_cons, h]
    · simp only [updAssoc, List.map_cons, if_neg h] at ih ⊢
      rw [lookupA_cons, lookupA_cons, if_neg h, if_neg h]
      exact ih

theorem lookupA_updAssoc_ne {α β : Type} [DecidableEq α]
    (l : List (α × β)) (k k2 : α) (f : β → β) (h : k2 ≠ k) :
    lookupA (updAssoc l k f) k2 = lookupA l k2 := by
  induction l with
  | nil => rfl
  | cons p t ih =>
    by_cases hp : p.1 = k
    · simp only [updAssoc, List.map_cons, if_pos hp] at ih ⊢
      rw [lookupA_cons, lookupA_cons]
      simp only [hp]
      rw [if_neg (fun hh => h hh.symm), if_neg (fun hh => h hh.symm)]
      exact ih
    · simp only [updAssoc, List.map_cons, if_neg hp] at ih ⊢
      rw [lookupA_cons, lookupA_cons]
      by_cases hq : p.1 = k2
      · simp [hq]
      · rw [if_neg hq, if_neg hq]; exact ih

theorem lookupA_append {α β : Type} [DecidableEq α]
    (l m : List (α × β)) (k : α) :
    lookupA (l ++ m) k = (lookupA l k).or (lookupA m k) := by
  induction l with
  | nil => simp [lookupA]
  | cons p t ih =>
    by_cases h : p.1 = k
    · simp [lookupA_cons, h, Option.or]
    · simpa [lookupA_cons, h] using ih

theorem updAssoc_cancel {α β : Type} [DecidableEq α]
    (l : List (α × β)) (k : α) (f g : β → β) (h : ∀ b, g (f b) = b) :
    updAssoc (updAssoc l k f) k g = l := by
  induction l with
  | nil => rfl
  | cons p t ih =>
    by_cases hp : p.1 = k
    · simp only [updAssoc, List.map_cons, if_pos hp, if_pos rfl]
      rw [h]
      have : (k, p.2) = p := by rw [← hp]
      rw [this]
      simpa [updAssoc] using ih
    · simp only [updAssoc, List.map_cons, if_neg hp]
      simpa [updAssoc] using ih

/- ======================= Store-level lemmas ======================= -/

theorem getUser_updLegacy_self (s : St) (u : String) (d : ℚ) :
    getUser (updLegacy s u d) u
      = (getUser s u).map (fun x => { x with balance := x.balance + d }) := by
  simpa [getUser, updLegacy] using
    lookupA_updAssoc_self s.users u (fun x => { x with balance := x.balance + d })

theorem getUser_updLegacy_ne (s : St) (u v : String) (d : ℚ) (h : v ≠ u) :
    getUser (updLegacy s u d) v = getUser s v := by
  simpa [getUser, updLegacy] using
    lookupA_updAssoc_ne s.users u v (fun x => { x with balance := x.balance + d }) h

theorem getBal_updEntry_self (s : St) (u c : String) (d : ℚ) :
    getBal (updEntry s u c d) u c = (getBal s u c).map (fun b => b + d) := by
  simpa [getBal, updEntry] using
    lookupA_updAssoc_self s.balances (u, c) (fun b => b + d)

theorem getBal_updEntry_ne (s : St) (u c v w : String) (d : ℚ) (h : (v, w) ≠ (u, c)) :
    getBal (updEntry s u c d) v w = getBal s v w := by
  simpa [getBal, updEntry] using
    lookupA_updAssoc_ne s.balances (u, c) (v, w) (fun b => b + d) h

theorem getBal_updEntryCond_self (s : St) (u c : String) (d : ℚ) :
    getBal (updEntryCond s u c d) u c
      = (getBal s u c).map (fun b => if d ≤ b then b - d else b) := by
  simpa [getBal, updEntryCond] using
    lookupA_updAssoc_self s.balances (u, c) (fun b => if d ≤ b then b - d else b)

theorem getBal_updEntryCond_ne (s : St) (u c v w : String) (d : ℚ)
    (h : (v, w) ≠ (u, c)) :
    getBal (updEntryCond s u c d) v w = getBal s v w := by
  simpa [getBal, updEntryCond] using
    lookupA_updAssoc_ne s.balances (u, c) (v, w) (fun b => if d ≤ b then b - d else b) h

theorem getBal_upsertEntry_self (s : St) (u c : String) (v : ℚ) :
    getBal (upsertEntry s u c v) u c = some ((getBal s u c).getD 0 + v) := by
  by_cases h : (lookupA s.balances (u, c)).isSome
  · rw [upsertEntry, if_pos h]
    rcases Option.isSome_iff_exists.mp h with ⟨b, hb⟩
    rw [getBal_updEntry_self]
    simp [getBal, hb]
  · rw [upsertEntry, if_neg h]
    have hn : lookupA s.balances (u, c) = none := Option.not_isSome_iff_eq_none.mp h
    simp [getBal, lookupA_append, hn, lookupA_cons]

theorem getBal_upsertEntry_ne (s : St) (u c x y : String) (v : ℚ)
    (h : (x, y) ≠ (u, c)) :
    getBal (upsertEntry s u c v) x y = getBal s x y := by
  by_cases hs : (lookupA s.balances (u, c)).isSome
  · rw [upsertEntry, if_pos hs]
    exact getBal_updEntry_ne s u c x y v h
  · rw [upsertEntry, if_neg hs]
    have hne : ¬(u = x ∧ c = y) := by
      intro hk
      exact h (by simp [hk.1, hk.2])
    simp [getBal, lookupA_append, lookupA_cons, hne, lookupA]

theorem getUser_updEntry (s : St) (u c : String) (d : ℚ) (v : String) :
    getUser (updEntry s u c d) v = getUser s v := rfl

theorem getUser_updEntryCond (s : St) (u c : String) (d : ℚ) (v : String) :
    getUser (updEntryCond s u c d) v = getUser s v := rfl

theorem getUser_upsertEntry (s : St) (u c : String) (d : ℚ) (v : String) :
    getUser (upsertEntry s u c d) v = getUser s v := by
  rw [upsertEntry]; split <;> rfl

theorem getUser_appendTrade (s : St) (r : TradeRec) (v : String) :
    getUser (appendTrade s r) v = getUser s v := rfl

theorem getBal_updLegacy (s : St) (u : String) (d : ℚ) (v w : String) :
    getBal (updLegacy s u d) v w = getBal s v w := rfl

theorem getBal_appendTrade (s : St) (r : TradeRec) (v w : String) :
    getBal (appendTrade s r) v w = getBal s v w := rfl

theorem trades_updLegacy (s : St) (u : String) (d : ℚ) :
    (updLegacy s u d).trades = s.trades := rfl

theorem trades_updEntry (s : St) (u c : String) (d : ℚ) :
    (updEntry s u c d).trades = s.trades := rfl

theorem trades_updEntryCond (s : St) (u c : String) (d : ℚ) :
    (updEntryCond s u c d).trades = s.trades := rfl

theorem trades_upsertEntry (s : St) (u c : String) (d : ℚ) :
    (upsertEntry s u c d).trades = s.trades := by
  rw [upsertEntry]; split <;> rfl

theorem trades_appendTrade (s : St) (r : TradeRec) :
    (appendTrade s r).trades = s.trades ++ [r] := rfl

theorem balances_updLegacy (s : St) (u : String) (d : ℚ) :
    (updLegacy s u d).balances = s.balances := rfl

theorem users_updEntry (s : St) (u c : String) (d : ℚ) :
    (updEntry s u c d).users = s.users := rfl

theorem users_upsertEntry (s : St) (u c : String) (d : ℚ) :
    (upsertEntry s u c d).users = s.users := by
  rw [upsertEntry]; split <;> rfl

theorem users_appendTrade (s : St) (r : TradeRec) :
    (appendTrade s r).users = s.users := rfl

/- =================== Endpoint unfolding lemmas =================== -/

theorem sufficientFrom_of_avail (s : St) (u fc : String) (amt : ℚ)
    (ha : 0 < amt) (hv : amt ≤ avail s u fc) :
    sufficientFrom s u fc amt = true := by
  by_cases h : fc = "USDT"
  · rw [avail, if_pos h] at hv
    rw [sufficientFrom, if_pos h]
    cases hg : getUser s u with
    | none =>
      rw [hg] at hv
      exact absurd (lt_of_lt_of_le ha hv) (lt_irrefl 0)
    | some x =>
      rw [hg] at hv
      simpa using hv
  · rw [avail, if_neg h] at hv
    rw [sufficientFrom, if_neg h]
    cases hg : getBal s u fc with
    | none =>
      rw [hg] at hv
      exact absurd (lt_of_lt_of_le ha hv) (lt_irrefl 0)
    | some b =>
      rw [hg] at hv
      simpa using hv

theorem sufficientFrom_user (s : St) (u fc : String) (amt : ℚ) (x : UserRec)
    (h : fc = "USDT") (hu : getUser s u = some x) (hb : amt ≤ x.balance) :
    sufficientFrom s u fc amt = true := by
  rw [sufficientFrom, if_pos h, hu]
  simpa using hb

theorem convert_valid_eq (prices : List (String × ℚ)) (u : String) (req : ConvertReq)
    (pF pT : ℚ) (s : St)
    (hfc : req.fromCurrency ≠ "")
    (ha : 0 < req.amount)
    (hne : req.fromCurrency ≠ resolveTo req.toCurrency)
    (hpF : priceOf prices req.fromCurrency = some pF) (hpF0 : pF ≠ 0)
    (hpT : priceOf prices (resolveTo req.toCurrency) = some pT) (hpT0 : pT ≠ 0)
    (hsuf : sufficientFrom s u req.fromCurrency req.amount = true) :
    convert prices u req none s
      = (.ok (req.amount * pF / pT) (pF / pT),
         applyWrites s (convertWrites u req.fromCurrency (resolveTo req.toCurrency)
           req.amount (req.amount * pF / pT))) := by
  have h1 : ¬(req.fromCurrency = "" ∨ req.amount = 0 ∨ req.amount ≤ 0) := by
    push_neg
    exact ⟨hfc, ne_of_gt ha, ha⟩
  have h2 : ¬(sufficientFrom s u req.fromCurrency req.amount = false) := by
    simp [hsuf]
  rw [convert]
  simp only [hpF, hpT, Option.getD_some]
  rw [if_neg h1, if_neg hne, if_neg hpF0, if_neg hpT0, if_neg h2]

/- ======================= Claim C1 ======================= -/

/-- C1: for every valid conversion request (positive amount, distinct
currencies, both prices available and nonzero, user row present,
sufficient available source balance), `POST /api/convert` decreases the
available balance of the source currency by exactly the amount, increases
the available balance of the target currency by exactly
`amount * price(from) / price(to)`, appends exactly one trade record with
side "convert", amount = amount, profit = converted amount and result
"win", and responds with that converted amount and the effective rate
`price(from) / price(to)`. -/
theorem c1_convert_ok (prices : List (String × ℚ)) (s : St) (u fc tc : String)
    (amt pF pT : ℚ) (user : UserRec)
    (hfc : fc ≠ "") (htc : tc ≠ "") (hnefc : fc ≠ tc)
    (ha : 0 < amt)
    (hpF : priceOf prices fc = some pF) (hpF0 : pF ≠ 0)
    (hpT : priceOf prices tc = some pT) (hpT0 : pT ≠ 0)
    (hu : getUser s u = some user)
    (hv : amt ≤ avail s u fc) :
    (convert prices u ⟨fc, some tc, amt⟩ none s).1 = .ok (amt * pF / pT) (pF / pT)
    ∧ avail (convert prices u ⟨fc, some tc, amt⟩ none s).2 u fc = avail s u fc - amt
    ∧ avail (convert prices u ⟨fc, some tc, amt⟩ none s).2 u tc
        = avail s u tc + amt * pF / pT
    ∧ (convert prices u ⟨fc, some tc, amt⟩ none s).2.trades
        = s.trades ++ [{ username := u, symbol := fc ++ "-" ++ tc, side := "convert",
                         amount := amt, profit := amt * pF / pT, result := "win" }] := by
  have hrt : resolveTo (some tc) = tc := by simp [resolveTo, htc]
  have hsuf : sufficientFrom s u fc amt = true := sufficientFrom_of_avail s u fc amt ha hv
  have hc := convert_valid_eq prices u ⟨fc, some tc, amt⟩ pF pT s hfc ha
    (by rw [hrt]; exact hnefc) hpF hpF0 (by rw [hrt]; exact hpT) hpT0 hsuf
  rw [hrt] at hc
  rw [hc]
  refine ⟨rfl, ?_⟩
  by_cases hfU : fc = "USDT"
  · -- source is the primary currency; the target cannot be
    have htU : tc ≠ "USDT" := by rw [← hfU]; exact fun hh => hnefc hh.symm
    subst hfU
    rw [convertWrites, if_pos rfl, if_neg htU]
    have hav : avail s u "USDT" = user.balance := by
      rw [avail, if_pos rfl, hu]
    constructor
    · rw [avail, if_pos rfl]
      simp only [applyWrites, List.foldl]
      rw [getUser_appendTrade, getUser_upsertEntry, getUser_updEntryCond,
        getUser_updLegacy_self, hu, hav]
      simp [sub_eq_add_neg]
    constructor
    · rw [avail, if_neg htU, avail, if_neg htU]
      simp only [applyWrites, List.foldl]
      rw [getBal_appendTrade, getBal_upsertEntry_self, getBal_updEntryCond_ne,
        getBal_updLegacy]
      · simp
      · intro hh
        rw [Prod.mk.injEq] at hh
        exact htU hh.2
    · simp only [applyWrites, List.foldl]
      rw [trades_appendTrade, trades_upsertEntry, trades_updEntryCond, trades_updLegacy]
  · have hbal : ∃ b, getBal s u fc = some b ∧ amt ≤ b := by
      have hv2 := hv
      rw [avail, if_neg hfU] at hv2
      cases hg : getBal s u fc with
      | none =>
        rw [hg] at hv2
        exact absurd (lt_of_lt_of_le ha hv2) (lt_irrefl 0)
      | some b =>
        rw [hg] at hv2
        exact ⟨b, rfl, by simpa using hv2⟩
    rcases hbal with ⟨b, hb, hble⟩
    by_cases htU : tc = "USDT"
    · -- target is the primary currency
      subst htU
      rw [convertWrites, if_neg hfU, if_pos rfl]
      constructor
      · rw [avail, if_neg hfU, avail, if_neg hfU]
        simp only [applyWrites, List.foldl]
        rw [getBal_appendTrade, getBal_upsertEntry_ne, getBal_updLegacy,
          getBal_updEntry_self, hb]
        · simp [sub_eq_add_neg]
        · intro hh
          rw [Prod.mk.injEq] at hh
          exact hfU hh.2
      constructor
      · rw [avail, if_pos rfl, avail, if_pos rfl]
        simp only [applyWrites, List.foldl]
        rw [getUser_appendTrade, getUser_upsertEntry, getUser_updLegacy_self,
          getUser_updEntry, hu]
        simp
      · simp only [applyWrites, List.foldl]
        rw [trades_appendTrade, trades_upsertEntry, trades_updLegacy, trades_updEntry]
    · -- neither currency is the primary one
      rw [convertWrites, if_neg hfU, if_neg htU]
      constructor
      · rw [avail, if_neg hfU, avail, if_neg hfU]
        simp only [applyWrites, List.foldl]
        rw [getBal_appendTrade, getBal_upsertEntry_ne, getBal_updEntry_self, hb]
        · simp [sub_eq_add_neg]
        · intro hh
          rw [Prod.mk.injEq] at hh
          exact hnefc hh.2
      constructor
      · rw [avail, if_neg htU, avail, if_neg htU]
        simp only [applyWrites, List.foldl]
        rw [getBal_appendTrade, getBal_upsertEntry_self, getBal_updEntry_ne]
        · simp
        · intro hh
          rw [Prod.mk.injEq] at hh
          exact hnefc hh.2.symm
      · simp only [applyWrites, List.foldl]
        rw [trades_appendTrade, trades_upsertEntry, trades_updEntry]

/-- Witness for C1: "alice" holds 2 BTC, converts 1 BTC into USDT at the
fallback prices (BTC 95000, USDT 1). -/
theorem c1_convert_ok_witness :
    (convert pricesFallback "alice" ⟨"BTC", some "USDT", 1⟩ none
        (mkSt 0 [] [(("alice", "BTC"), 2)])).1 = .ok (1 * 95000 / 1) (95000 / 1)
    ∧ avail (convert pricesFallback "alice" ⟨"BTC", some "USDT", 1⟩ none
        (mkSt 0 [] [(("alice", "BTC"), 2)])).2 "alice" "BTC"
        = avail (mkSt 0 [] [(("alice", "BTC"), 2)]) "alice" "BTC" - 1
    ∧ avail (convert pricesFallback "alice" ⟨"BTC", some "USDT", 1⟩ none
        (mkSt 0 [] [(("alice", "BTC"), 2)])).2 "alice" "USDT"
        = avail (mkSt 0 [] [(("alice", "BTC"), 2)]) "alice" "USDT" + 1 * 95000 / 1
    ∧ (convert pricesFallback "alice" ⟨"BTC", some "USDT", 1⟩ none
        (mkSt 0 [] [(("alice", "BTC"), 2)])).2.trades
        = (mkSt 0 [] [(("alice", "BTC"), 2)]).trades ++
          [{ username := "alice", symbol := "BTC" ++ "-" ++ "USDT", side := "convert",
             amount := 1, profit := 1 * 95000 / 1, result := "win" }] :=
  c1_convert_ok pricesFallback (mkSt 0 [] [(("alice", "BTC"), 2)]) "alice" "BTC" "USDT"
    1 95000 1 (mkUser 0 []) (by decide) (by decide) (by decide) (by norm_num)
    (by rfl) (by norm_num) (by rfl) (by norm_num) (by rfl) (by decide)

/- ======================= Claim C6 ======================= -/

theorem sufficientFrom_false_of_avail (s : St) (u fc : String) (amt : ℚ)
    (hv : avail s u fc < amt) :
    sufficientFrom s u fc amt = false := by
  by_cases h : fc = "USDT"
  · rw [avail, if_pos h] at hv
    rw [sufficientFrom, if_pos h]
    cases hg : getUser s u with
    | none => rfl
    | some x =>
      rw [hg] at hv
      simpa using not_le.mpr hv
  · rw [avail, if_neg h] at hv
    rw [sufficientFrom, if_neg h]
    cases hg : getBal s u fc with
    | none => rfl
    | some b =>
      rw [hg] at hv
      simp only [Option.getD_some] at hv
      simpa using not_le.mpr hv

/-- C6: a conversion request that passes input validation fails with a
price-unavailable error and no state change when the source currency is
absent from the price mapping, likewise when the (resolved) target
currency is absent, and fails with an insufficient-funds error and no
state change when the available balance of the source currency (legacy
scalar for USDT, per-currency entry defaulting to zero otherwise) is
below the requested amount. -/
theorem c6_convert_errors (prices : List (String × ℚ)) (s : St) (u : String)
    (req : ConvertReq)
    (hfc : req.fromCurrency ≠ "") (ha : 0 < req.amount)
    (hne : req.fromCurrency ≠ resolveTo req.toCurrency) :
    (priceOf prices req.fromCurrency = none →
      convert prices u req none s = (.priceUnavailable req.fromCurrency, s))
    ∧ (∀ pF, priceOf prices req.fromCurrency = some pF → pF ≠ 0 →
        priceOf prices (resolveTo req.toCurrency) = none →
        convert prices u req none s = (.priceUnavailable (resolveTo req.toCurrency), s))
    ∧ (∀ pF pT, priceOf prices req.fromCurrency = some pF → pF ≠ 0 →
        priceOf prices (resolveTo req.toCurrency) = some pT → pT ≠ 0 →
        avail s u req.fromCurrency < req.amount →
        convert prices u req none s = (.insufficient, s)) := by
  have h1 : ¬(req.fromCurrency = "" ∨ req.amount = 0 ∨ req.amount ≤ 0) := by
    push_neg
    exact ⟨hfc, ne_of_gt ha, ha⟩
  refine ⟨?_, ?_, ?_⟩
  · intro hp
    rw [convert]
    simp only [hp, Option.getD_none]
    rw [if_neg h1, if_neg hne, if_pos trivial]
  · intro pF hpF hpF0 hpT
    rw [convert]
    simp only [hpF, hpT, Option.getD_some, Option.getD_none]
    rw [if_neg h1, if_neg hne, if_neg hpF0, if_pos trivial]
  · intro pF pT hpF hpF0 hpT hpT0 hv
    have hs : sufficientFrom s u req.fromCurrency req.amount = false :=
      sufficientFrom_false_of_avail s u req.fromCurrency req.amount hv
    rw [convert]
    simp only [hpF, hpT, Option.getD_some]
    rw [if_neg h1, if_neg hne, if_neg hpF0, if_neg hpT0, if_pos hs]

/-- Witness for C6: with only USDT priced, converting from unpriced BTC
fails with a price error; with both priced but only 2 BTC held, converting
5 BTC fails with insufficient funds; both leave the store untouched. -/
theorem c6_convert_errors_witness :
    convert [("USDT", (1 : ℚ))] "alice" ⟨"BTC", some "USDT", 1⟩ none
        (mkSt 5 [] []) = (.priceUnavailable "BTC", mkSt 5 [] [])
    ∧ convert pricesFallback "alice" ⟨"BTC", some "USDT", 5⟩ none
        (mkSt 5 [] [(("alice", "BTC"), 2)])
        = (.insufficient, mkSt 5 [] [(("alice", "BTC"), 2)]) := by
  constructor
  · exact (c6_convert_errors [("USDT", 1)] (mkSt 5 [] []) "alice"
      ⟨"BTC", some "USDT", 1⟩ (by decide) (by norm_num) (by decide)).1 (by rfl)
  · exact (c6_convert_errors pricesFallback (mkSt 5 [] [(("alice", "BTC"), 2)]) "alice"
      ⟨"BTC", some "USDT", 5⟩ (by decide) (by norm_num) (by decide)).2.2
      95000 1 (by rfl) (by norm_num) (by rfl) (by norm_num) (by decide)

/- ======================= Claim C10 ======================= -/

/-- C10: a convert request that omits `toCurrency` behaves exactly as if
`toCurrency` were "USDT": the whole endpoint result coincides with the
explicit-USDT request, and in particular a request with `fromCurrency =
"USDT"` and no `toCurrency` is rejected as a same-currency conversion
with no state change. -/
theorem c10_convert_default (prices : List (String × ℚ)) (u fc : String) (amt : ℚ)
    (failAt : Option Nat) (s : St) :
    convert prices u ⟨fc, none, amt⟩ failAt s
      = convert prices u ⟨fc, some "USDT", amt⟩ failAt s
    ∧ (fc = "USDT" → 0 < amt →
        convert prices u ⟨fc, none, amt⟩ failAt s = (.sameCurrency, s)) := by
  constructor
  · rfl
  · intro hfc ha
    subst hfc
    have h1 : ¬(("USDT" : String) = "" ∨ amt = 0 ∨ amt ≤ 0) := by
      push_neg
      exact ⟨by decide, ne_of_gt ha, ha⟩
    rw [convert, if_neg h1]
    simp [resolveTo]

/-- Witness for C10: converting from USDT with no target currency is
rejected as a same-currency conversion. -/
theorem c10_convert_default_witness :
    convert pricesFallback "alice" ⟨"USDT", none, 1⟩ none (mkSt 5 [] [])
      = (.sameCurrency, mkSt 5 [] []) :=
  (c10_convert_default pricesFallback "alice" "USDT" 1 none (mkSt 5 [] [])).2
    rfl (by norm_num)

/- =================== Trade unfolding lemma =================== -/

theorem trade_valid_eq (req : TradeReq) (s : St) (user : UserRec) (a : ℚ)
    (hu : getUser s req.username = some user)
    (hamt : req.amount = some a)
    (ha : 0 < a)
    (hmin : effectiveMin user.minTradeAmount ≤ a) :
    trade req none s
      = (.settled (if req.side = s.winSide then "win" else "lose")
           (if req.side = s.winSide then a * (resolvePercent user req / 100) else -a),
         updLegacy (appendTrade s
           { username := req.username, symbol := req.symbol, side := req.side,
             amount := a,
             profit := if req.side = s.winSide then a * (resolvePercent user req / 100)
                       else -a,
             result := if req.side = s.winSide then "win" else "lose" })
           req.username
           (if req.side = s.winSide then a * (resolvePercent user req / 100) else -a)) := by
  have hbm : amountBelow (some a) (effectiveMin user.minTradeAmount) = false := by
    simp only [amountBelow, decide_eq_false_iff_not]
    exact not_lt.mpr hmin
  rw [trade]
  simp only [hu, hamt, hbm]
  rw [if_neg (by simp)]
  rw [if_neg (not_le.mpr ha)]

/- ======================= Claim C2 ======================= -/

/-- C2: for every trade settlement whose parsed amount is positive and at
or above the user's effective minimum, the result is "win" precisely when
the request side equals the global outcome parameter; the profit returned
and applied to the legacy balance is `amount * (percent / 100)` on a win
(with percent resolved by the tier/caller rule) and `-amount` on a loss. -/
theorem c2_settlement (req : TradeReq) (s : St) (user : UserRec) (a : ℚ)
    (hu : getUser s req.username = some user)
    (hamt : req.amount = some a) (ha : 0 < a)
    (hmin : effectiveMin user.minTradeAmount ≤ a) :
    ∃ r p, (trade req none s).1 = .settled r p
      ∧ (r = "win" ↔ req.side = s.winSide)
      ∧ (req.side = s.winSide → p = a * (resolvePercent user req / 100))
      ∧ (req.side ≠ s.winSide → p = -a)
      ∧ getUser (trade req none s).2 req.username
          = some { user with balance := user.balance + p } := by
  rw [trade_valid_eq req s user a hu hamt ha hmin]
  refine ⟨_, _, rfl, ?_, ?_, ?_, ?_⟩
  · by_cases hw : req.side = s.winSide
    · simp [hw]
    · simp [hw]
  · intro hw
    rw [if_pos hw]
  · intro hw
    rw [if_neg hw]
  · rw [getUser_updLegacy_self, getUser_appendTrade, hu]
    rfl

/-- Witness for C2: win side "long", a long trade of 100 at percent 50 on
a user with balance 1000 settles as a win with profit 50 and balance
1050. -/
theorem c2_settlement_witness :
    ∃ r p,
      (trade ⟨"alice", "BTC", "long", some 100, none, some 50⟩ none
          (mkSt 1000 [] [])).1 = .settled r p
      ∧ (r = "win" ↔ ("long" : String) = (mkSt 1000 [] []).winSide)
      ∧ (("long" : String) = (mkSt 1000 [] []).winSide →
          p = 100 * (resolvePercent (mkUser 1000 [])
            ⟨"alice", "BTC", "long", some 100, none, some 50⟩ / 100))
      ∧ (("long" : String) ≠ (mkSt 1000 [] []).winSide → p = -100)
      ∧ getUser (trade ⟨"alice", "BTC", "long", some 100, none, some 50⟩ none
            (mkSt 1000 [] [])).2 "alice"
          = some { mkUser 1000 [] with balance := (mkUser 1000 []).balance + p } :=
  c2_settlement ⟨"alice", "BTC", "long", some 100, none, some 50⟩ (mkSt 1000 [] [])
    (mkUser 1000 []) 100 (by rfl) rfl (by norm_num) (by decide)

/- ======================= Claim C7 ======================= -/

/-- C7: a losing trade settlement (side differs from the outcome
parameter) is applied with no sufficiency check: for every existing user
and every valid losing amount, the settlement succeeds with profit
`-amount` and the legacy balance simply decreases by the amount, which may
drive it negative — the loss is never rejected for insufficient funds. -/
theorem c7_losing_trade (req : TradeReq) (s : St) (user : UserRec) (a : ℚ)
    (hu : getUser s req.username = some user)
    (hamt : req.amount = some a) (ha : 0 < a)
    (hmin : effectiveMin user.minTradeAmount ≤ a)
    (hside : req.side ≠ s.winSide) :
    (trade req none s).1 = .settled "lose" (-a)
    ∧ getUser (trade req none s).2 req.username
        = some { user with balance := user.balance - a } := by
  rw [trade_valid_eq req s user a hu hamt ha hmin]
  rw [if_neg hside, if_neg hside]
  refine ⟨rfl, ?_⟩
  rw [getUser_updLegacy_self, getUser_appendTrade, hu]
  simp [sub_eq_add_neg]

/-- Witness for C7: a user with balance 0 loses a trade of 100; the
settlement succeeds and the balance becomes -100, i.e. negative. -/
theorem c7_losing_trade_witness :
    ((trade ⟨"alice", "BTC", "short", some 100, none, some 50⟩ none
        (mkSt 0 [] [])).1 = .settled "lose" (-100)
    ∧ getUser (trade ⟨"alice", "BTC", "short", some 100, none, some 50⟩ none
        (mkSt 0 [] [])).2 "alice"
        = some { mkUser 0 [] with balance := (mkUser 0 []).balance - 100 })
    ∧ (mkUser 0 []).balance - 100 < 0 :=
  ⟨c7_losing_trade ⟨"alice", "BTC", "short", some 100, none, some 50⟩ (mkSt 0 [] [])
      (mkUser 0 []) 100 (by rfl) rfl (by norm_num) (by decide) (by decide),
   by norm_num [mkUser]⟩

/- ======================= Claim C8 ======================= -/

/-- Counterexample to C8 as stated: the user has a tier (60 s, payout 0%);
a trade supplying duration 60 and caller percent 50 settles using the
caller's 50, not the tier's 0, because `!percent` treats the tier's 0 as
falsy and falls back to the caller value.  Under the claim the profit
would be `100 * (0 / 100) = 0`, but the code returns profit 50. -/
theorem c8_tier_counterexample :
    (trade ⟨"alice", "BTC", "long", some 100, some 60, some 50⟩ none
        (mkSt 0 [⟨60, some 0⟩] [])).1 = .settled "win" 50
    ∧ (50 : ℚ) ≠ 100 * (0 / 100) := by
  have hres : resolvePercent (mkUser 0 [⟨60, some 0⟩])
      ⟨"alice", "BTC", "long", some 100, some 60, some 50⟩ = 50 := by
    simp [resolvePercent, secondsTruthy, mkUser, List.find?]
  have ht := trade_valid_eq ⟨"alice", "BTC", "long", some 100, some 60, some 50⟩
    (mkSt 0 [⟨60, some 0⟩] []) (mkUser 0 [⟨60, some 0⟩]) 100 (by rfl) rfl
    (by norm_num) (by decide)
  constructor
  · rw [ht]
    simp only [mkSt, hres]
    norm_num
  · norm_num

/-- C8 amended: a trade whose duration matches a configured tier uses that
tier's payout percent regardless of the caller-supplied percent, provided
the tier's percent parses to a nonzero number; a tier percent of zero or
an unparsable tier percent falls back to the caller-supplied percent. -/
theorem c8_tier_amended (req : TradeReq) (s : St) (user : UserRec)
    (a sec p : ℚ) (tier : Tier)
    (hu : getUser s req.username = some user)
    (hamt : req.amount = some a) (ha : 0 < a)
    (hmin : effectiveMin user.minTradeAmount ≤ a)
    (hsec : req.seconds = some sec) (hsec0 : sec ≠ 0)
    (hfind : user.tradeSettings.find?
        (fun t => decide (t.seconds = req.seconds.getD 0)) = some tier)
    (hp : tier.percent = some p) (hp0 : p ≠ 0) :
    resolvePercent user req = p
    ∧ (trade req none s).1
        = .settled (if req.side = s.winSide then "win" else "lose")
            (if req.side = s.winSide then a * (p / 100) else -a) := by
  have hres : resolvePercent user req = p := by
    have htr : secondsTruthy req.seconds = true := by
      rw [hsec]
      simpa [secondsTruthy] using hsec0
    rw [resolvePercent]
    simp [htr, hfind, hp, hp0]
  refine ⟨hres, ?_⟩
  rw [trade_valid_eq req s user a hu hamt ha hmin, hres]

/-- Witness for C8 amended: a tier (60 s, 80%) overrides the caller's 50%
for a winning trade of 100, yielding profit 80. -/
theorem c8_tier_amended_witness :
    resolvePercent (mkUser 0 [⟨60, some 80⟩])
        ⟨"alice", "BTC", "long", some 100, some 60, some 50⟩ = 80
    ∧ (trade ⟨"alice", "BTC", "long", some 100, some 60, some 50⟩ none
        (mkSt 0 [⟨60, some 80⟩] [])).1
        = .settled
            (if ("long" : String) = (mkSt 0 [⟨60, some 80⟩] []).winSide
             then "win" else "lose")
            (if ("long" : String) = (mkSt 0 [⟨60, some 80⟩] []).winSide
             then 100 * ((80 : ℚ) / 100) else -100) :=
  c8_tier_amended ⟨"alice", "BTC", "long", some 100, some 60, some 50⟩
    (mkSt 0 [⟨60, some 80⟩] []) (mkUser 0 [⟨60, some 80⟩]) 100 60 80 ⟨60, some 80⟩
    (by rfl) rfl (by norm_num) (by decide) rfl (by norm_num) (by rfl) rfl
    (by norm_num)

/- ======================= Claim C3 ======================= -/

theorem trade_fail1_eq (req : TradeReq) (s : St) (user : UserRec) (a : ℚ)
    (hu : getUser s req.username = some user)
    (hamt : req.amount = some a)
    (ha : 0 < a)
    (hmin : effectiveMin user.minTradeAmount ≤ a) :
    trade req (some 1) s
      = (.tradeFailed, appendTrade s
          { username := req.username, symbol := req.symbol, side := req.side,
            amount := a,
            profit := if req.side = s.winSide then a * (resolvePercent user req / 100)
                      else -a,
            result := if req.side = s.winSide then "win" else "lose" }) := by
  have hbm : amountBelow (some a) (effectiveMin user.minTradeAmount) = false := by
    simp only [amountBelow, decide_eq_false_iff_not]
    exact not_lt.mpr hmin
  rw [trade]
  simp only [hu, hamt, hbm]
  rw [if_neg (by simp)]
  rw [if_neg (not_le.mpr ha)]

/-- Counterexample to C3 as stated: a trade settlement whose balance
UPDATE fails after the trades INSERT succeeded returns a failure yet
leaves the appended trade record behind — the store is not "exactly as
before the call", because the two statements are not wrapped in a
transaction. -/
theorem c3_trade_not_atomic_counterexample :
    (trade ⟨"alice", "BTC", "long", some 100, none, some 50⟩ (some 1)
        (mkSt 1000 [] [])).1 = .tradeFailed
    ∧ (trade ⟨"alice", "BTC", "long", some 100, none, some 50⟩ (some 1)
        (mkSt 1000 [] [])).2.trades ≠ (mkSt 1000 [] []).trades := by
  have ht := trade_fail1_eq ⟨"alice", "BTC", "long", some 100, none, some 50⟩
    (mkSt 1000 [] []) (mkUser 1000 []) 100 (by rfl) rfl (by norm_num) (by decide)
  rw [ht]
  constructor
  · rfl
  · simp [appendTrade, mkSt]

/-- C3 amended: the convert debit/credit pair and the withdrawal escrow
run inside one transaction, so any failure (including one injected at any
mutation step) leaves the store exactly as before the call — the only way
the store changes is the full successful write sequence.  The trade
settlement, however, issues its record INSERT and balance UPDATE without
a transaction: when the balance UPDATE fails after the INSERT, the call
reports failure but the appended trade record persists (balances are
untouched). -/
theorem c3_atomicity_amended :
    (∀ prices u req failAt s, (convert prices u req failAt s).2 = s
        ∨ ∃ ca r, convert prices u req failAt s
            = (.ok ca r, applyWrites s (convertWrites u req.fromCurrency
                (resolveTo req.toCurrency) req.amount ca)))
    ∧ (∀ u req failAt s, (withdraw u req failAt s).2 = s
        ∨ ∃ w, withdrawDeduct s u req = some w
            ∧ withdraw u req failAt s
              = (.pending (insertWithdrawal (w s) u req).1,
                 (insertWithdrawal (w s) u req).2))
    ∧ (∀ req s user a, getUser s req.username = some user → req.amount = some a →
        0 < a → effectiveMin user.minTradeAmount ≤ a →
        trade req (some 1) s
          = (.tradeFailed, appendTrade s
              { username := req.username, symbol := req.symbol, side := req.side,
                amount := a,
                profit := if req.side = s.winSide then a * (resolvePercent user req / 100)
                          else -a,
                result := if req.side = s.winSide then "win" else "lose" })
        ∧ (appendTrade s
              { username := req.username, symbol := req.symbol, side := req.side,
                amount := a,
                profit := if req.side = s.winSide then a * (resolvePercent user req / 100)
                          else -a,
                result := if req.side = s.winSide then "win" else "lose" }).users
            = s.users) := by
  refine ⟨?_, ?_, ?_⟩
  · intro prices u req failAt s
    simp only [convert]
    split_ifs
    · left; rfl
    · left; rfl
    · left; rfl
    · left; rfl
    · left; rfl
    · cases failAt with
      | none => right; exact ⟨_, _, rfl⟩
      | some k =>
        by_cases hk : k < (convertWrites u req.fromCurrency (resolveTo req.toCurrency)
            req.amount (req.amount * (priceOf prices req.fromCurrency).getD 0 /
              (priceOf prices (resolveTo req.toCurrency)).getD 0)).length
        · left
          simp [hk]
        · right
          exact ⟨req.amount * (priceOf prices req.fromCurrency).getD 0 /
              (priceOf prices (resolveTo req.toCurrency)).getD 0,
            (priceOf prices req.fromCurrency).getD 0 /
              (priceOf prices (resolveTo req.toCurrency)).getD 0,
            by simp [hk]⟩
  · intro u req failAt s
    simp only [withdraw]
    split_ifs
    · left; rfl
    · left; rfl
    · cases hd : withdrawDeduct s u req with
      | none => left; rfl
      | some w =>
        cases failAt with
        | none => right; exact ⟨w, rfl, rfl⟩
        | some k =>
          by_cases hk : k < 2
          · left
            simp [hk]
          · right
            refine ⟨w, rfl, ?_⟩
            simp [hk]
  · intro req s user a hu hamt ha hmin
    exact ⟨trade_fail1_eq req s user a hu hamt ha hmin, rfl⟩

/-- Witness for C3 amended: a convert whose first transactional write
fails leaves the store unchanged (or would be a success, which the
disjunction covers); same for a failing withdrawal; a trade whose balance
UPDATE fails keeps the inserted record. -/
theorem c3_atomicity_amended_witness :
    ((convert pricesFallback "alice" ⟨"BTC", some "USDT", 1⟩ (some 0)
        (mkSt 0 [] [(("alice", "BTC"), 2)])).2 = mkSt 0 [] [(("alice", "BTC"), 2)]
      ∨ ∃ ca r, convert pricesFallback "alice" ⟨"BTC", some "USDT", 1⟩ (some 0)
          (mkSt 0 [] [(("alice", "BTC"), 2)])
          = (.ok ca r, applyWrites (mkSt 0 [] [(("alice", "BTC"), 2)])
              (convertWrites "alice" "BTC" (resolveTo (some "USDT")) 1 ca)))
    ∧ ((withdraw "alice" ⟨"BTC", "TRC20", 1, "addr"⟩ (some 0)
        (mkSt 0 [] [(("alice", "BTC"), 2)])).2 = mkSt 0 [] [(("alice", "BTC"), 2)]
      ∨ ∃ w, withdrawDeduct (mkSt 0 [] [(("alice", "BTC"), 2)]) "alice"
            ⟨"BTC", "TRC20", 1, "addr"⟩ = some w
          ∧ withdraw "alice" ⟨"BTC", "TRC20", 1, "addr"⟩ (some 0)
              (mkSt 0 [] [(("alice", "BTC"), 2)])
            = (.pending (insertWithdrawal (w (mkSt 0 [] [(("alice", "BTC"), 2)]))
                  "alice" ⟨"BTC", "TRC20", 1, "addr"⟩).1,
               (insertWithdrawal (w (mkSt 0 [] [(("alice", "BTC"), 2)]))
                  "alice" ⟨"BTC", "TRC20", 1, "addr"⟩).2))
    ∧ (trade ⟨"alice", "BTC", "long", some 100, none, some 50⟩ (some 1)
          (mkSt 1000 [] [])
        = (.tradeFailed, appendTrade (mkSt 1000 [] [])
            { username := "alice", symbol := "BTC", side := "long", amount := 100,
              profit := if ("long" : String) = (mkSt 1000 [] []).winSide
                        then 100 * (resolvePercent (mkUser 1000 [])
                          ⟨"alice", "BTC", "long", some 100, none, some 50⟩ / 100)
                        else -100,
              result := if ("long" : String) = (mkSt 1000 [] []).winSide
                        then "win" else "lose" })
        ∧ (appendTrade (mkSt 1000 [] [])
            { username := "alice", symbol := "BTC", side := "long", amount := 100,
              profit := if ("long" : String) = (mkSt 1000 [] []).winSide
                        then 100 * (resolvePercent (mkUser 1000 [])
                          ⟨"alice", "BTC", "long", some 100, none, some 50⟩ / 100)
                        else -100,
              result := if ("long" : String) = (mkSt 1000 [] []).winSide
                        then "win" else "lose" }).users = (mkSt 1000 [] []).users) :=
  ⟨c3_atomicity_amended.1 pricesFallback "alice" ⟨"BTC", some "USDT", 1⟩ (some 0)
      (mkSt 0 [] [(("alice", "BTC"), 2)]),
   c3_atomicity_amended.2.1 "alice" ⟨"BTC", "TRC20", 1, "addr"⟩ (some 0)
      (mkSt 0 [] [(("alice", "BTC"), 2)]),
   c3_atomicity_amended.2.2 ⟨"alice", "BTC", "long", some 100, none, some 50⟩
      (mkSt 1000 [] []) (mkUser 1000 []) 100 (by rfl) rfl (by norm_num) (by decide)⟩

/- ======================= Claim C4 ======================= -/

theorem find_dep_statusMap (l : List DepositRec) (did : Nat) (st : String) :
    (l.map (fun d => if d.did = did then { d with status := st } else d)).find?
        (fun d => decide (d.did = did))
      = (l.find? (fun d => decide (d.did = did))).map
          (fun d => { d with status := st }) := by
  induction l with
  | nil => rfl
  | cons d t ih =>
    by_cases h : d.did = did
    · simp [h]
    · simp only [List.map_cons, if_neg h]
      rw [List.find?_cons_of_neg _ (by simpa using h),
        List.find?_cons_of_neg _ (by simpa using h)]
      exact ih

theorem depositStatus_approved_eq (did : Nat) (s : St) (dep : DepositRec)
    (hfind : s.deposits.find? (fun d => decide (d.did = did)) = some dep) :
    depositStatus did "approved" s
      = updLegacy (depStatusMap s did "approved") dep.username dep.amount := by
  rw [depositStatus]
  have hf2 : (depStatusMap s did "approved").deposits.find?
      (fun d => decide (d.did = did)) = some { dep with status := "approved" } := by
    rw [depStatusMap]
    rw [find_dep_statusMap]
    rw [hfind]
    rfl
  simp only [if_pos rfl, hf2]
  rw [if_pos trivial]

theorem getUser_depStatusMap (s : St) (did : Nat) (st : String) (v : String) :
    getUser (depStatusMap s did st) v = getUser s v := rfl

theorem getBal_depStatusMap (s : St) (did : Nat) (st : String) (v w : String) :
    getBal (depStatusMap s did st) v w = getBal s v w := rfl

theorem getUser_wdStatusMap (s : St) (wid : Nat) (st : String) (v : String) :
    getUser (wdStatusMap s wid st) v = getUser s v := rfl

theorem getBal_wdStatusMap (s : St) (wid : Nat) (st : String) (v w : String) :
    getBal (wdStatusMap s wid st) v w = getBal s v w := rfl

theorem withdrawStatus_approved_eq (wid : Nat) (s : St) (w : WithdrawalRec)
    (hfind : s.withdrawals.find? (fun x => decide (x.wid = wid)) = some w)
    (hpend : w.status = "pending") :
    withdrawStatus wid "approved" s = (.ok, wdStatusMap s wid "approved") := by
  rw [withdrawStatus]
  rw [if_neg (by simp)]
  simp only [hfind]
  rw [if_neg (by simp [hpend])]
  rw [if_neg (by simp)]

theorem withdrawStatus_rejected_usdt_eq (wid : Nat) (s : St) (w : WithdrawalRec)
    (hfind : s.withdrawals.find? (fun x => decide (x.wid = wid)) = some w)
    (hpend : w.status = "pending") (hcur : w.currency = "USDT") :
    withdrawStatus wid "rejected" s
      = (.ok, updLegacy (wdStatusMap s wid "rejected") w.username w.amount) := by
  rw [withdrawStatus]
  rw [if_neg (by simp)]
  simp only [hfind]
  rw [if_neg (by simp [hpend])]
  rw [if_pos trivial, if_pos hcur]

theorem withdrawStatus_rejected_coin_eq (wid : Nat) (s : St) (w : WithdrawalRec)
    (hfind : s.withdrawals.find? (fun x => decide (x.wid = wid)) = some w)
    (hpend : w.status = "pending") (hcur : w.currency ≠ "USDT") :
    withdrawStatus wid "rejected" s
      = (.ok, upsertEntry (wdStatusMap s wid "rejected") w.username w.currency
          w.amount) := by
  rw [withdrawStatus]
  rw [if_neg (by simp)]
  simp only [hfind]
  rw [if_neg (by simp [hpend])]
  rw [if_pos trivial, if_neg hcur]

/-- Counterexample to C4 as stated: approving a 50 USDT deposit for a
user with legacy balance 0 and an existing per-currency USDT mirror entry
of 100 credits the legacy scalar (0 becomes 50) but leaves the mirror
entry at 100 — this credit path does not update both representations by
the same amount. -/
theorem c4_deposit_credit_counterexample :
    (getUser (depositStatus 1 "approved" (mkStFull 0 [(("alice", "USDT"), 100)]
        [{ did := 1, username := "alice", currency := "USDT", network := "TRC20",
           amount := 50, status := "pending" }] [])) "alice").map UserRec.balance
      = some 50
    ∧ getBal (depositStatus 1 "approved" (mkStFull 0 [(("alice", "USDT"), 100)]
        [{ did := 1, username := "alice", currency := "USDT", network := "TRC20",
           amount := 50, status := "pending" }] [])) "alice" "USDT" = some 100
    ∧ getBal (mkStFull 0 [(("alice", "USDT"), 100)]
        [{ did := 1, username := "alice", currency := "USDT", network := "TRC20",
           amount := 50, status := "pending" }] []) "alice" "USDT" = some 100 := by
  have hd := depositStatus_approved_eq 1 (mkStFull 0 [(("alice", "USDT"), 100)]
    [{ did := 1, username := "alice", currency := "USDT", network := "TRC20",
       amount := 50, status := "pending" }] [])
    { did := 1, username := "alice", currency := "USDT", network := "TRC20",
      amount := 50, status := "pending" } (by rfl)
  rw [hd]
  refine ⟨?_, by rfl, by rfl⟩
  rw [getUser_updLegacy_self, getUser_depStatusMap]
  have hg : getUser (mkStFull 0 [(("alice", "USDT"), 100)]
      [{ did := 1, username := "alice", currency := "USDT", network := "TRC20",
         amount := 50, status := "pending" }] []) "alice" = some (mkUser 0 []) := rfl
  rw [hg]
  simp [mkUser]

/-- C4 amended: of the five USDT credit paths, only the conversion credit
and the admin add-coin credit update both representations by the same
amount; the trade-profit credit, the deposit-approval credit and the USDT
withdrawal-rejection refund increase the legacy scalar only and leave
every per-currency entry (in particular an existing USDT mirror entry)
unchanged. -/
theorem c4_usdt_credit_amended :
    (∀ prices s u fc amt pF pT user b,
        fc ≠ "" → fc ≠ "USDT" → 0 < amt →
        priceOf prices fc = some pF → pF ≠ 0 →
        priceOf prices "USDT" = some pT → pT ≠ 0 →
        getUser s u = some user →
        getBal s u fc = some b → amt ≤ b →
        getUser (convert prices u ⟨fc, some "USDT", amt⟩ none s).2 u
            = some { user with balance := user.balance + amt * pF / pT }
          ∧ ∀ m, getBal s u "USDT" = some m →
              getBal (convert prices u ⟨fc, some "USDT", amt⟩ none s).2 u "USDT"
                = some (m + amt * pF / pT))
    ∧ (∀ s u amt user, u ≠ "" → getUser s u = some user →
        getUser (addCoinBalance u "USDT" amt s).2 u
            = some { user with balance := user.balance + amt }
          ∧ getBal (addCoinBalance u "USDT" amt s).2 u "USDT"
              = some ((getBal s u "USDT").getD 0 + amt))
    ∧ (∀ req s user a, getUser s req.username = some user → req.amount = some a →
        0 < a → effectiveMin user.minTradeAmount ≤ a →
        getUser (trade req none s).2 req.username
            = some { user with balance := user.balance +
                (if req.side = s.winSide then a * (resolvePercent user req / 100)
                 else -a) }
          ∧ ∀ v c, getBal (trade req none s).2 v c = getBal s v c)
    ∧ (∀ did s dep user,
        s.deposits.find? (fun d => decide (d.did = did)) = some dep →
        getUser s dep.username = some user →
        getUser (depositStatus did "approved" s) dep.username
            = some { user with balance := user.balance + dep.amount }
          ∧ ∀ v c, getBal (depositStatus did "approved" s) v c = getBal s v c)
    ∧ (∀ wid s w user,
        s.withdrawals.find? (fun x => decide (x.wid = wid)) = some w →
        w.status = "pending" → w.currency = "USDT" →
        getUser s w.username = some user →
        getUser (withdrawStatus wid "rejected" s).2 w.username
            = some { user with balance := user.balance + w.amount }
          ∧ ∀ v c, getBal (withdrawStatus wid "rejected" s).2 v c = getBal s v c) := by
  refine ⟨?_, ?_, ?_, ?_, ?_⟩
  · intro prices s u fc amt pF pT user b hfc hfU ha hpF hpF0 hpT hpT0 hu hb hble
    have hsuf : sufficientFrom s u fc amt = true := by
      rw [sufficientFrom, if_neg hfU]
      simp only [hb]
      simpa using hble
    have hrt : resolveTo (some "USDT") = "USDT" := rfl
    have hc := convert_valid_eq prices u ⟨fc, some "USDT", amt⟩ pF pT s hfc ha
      (by rw [hrt]; exact hfU) hpF hpF0 (by rw [hrt]; exact hpT) hpT0 hsuf
    rw [hrt] at hc
    rw [hc]
    rw [convertWrites, if_neg hfU, if_pos rfl]
    constructor
    · simp only [applyWrites, List.foldl]
      rw [getUser_appendTrade, getUser_upsertEntry, getUser_updLegacy_self,
        getUser_updEntry, hu]
      rfl
    · intro m hm
      simp only [applyWrites, List.foldl]
      rw [getBal_appendTrade, getBal_upsertEntry_self, getBal_updLegacy,
        getBal_updEntry_ne, hm]
      · rfl
      · intro hh
        rw [Prod.mk.injEq] at hh
        exact hfU hh.2.symm
  · intro s u amt user hne hu
    have hval : ¬(u = "" ∨ ("USDT" : String) = "") := by
      push_neg
      exact ⟨hne, by decide⟩
    rw [addCoinBalance, if_neg hval, if_pos rfl]
    constructor
    · rw [getUser_updLegacy_self, getUser_upsertEntry, hu]
      rfl
    · rw [getBal_updLegacy, getBal_upsertEntry_self]
  · intro req s user a hu hamt ha hmin
    rw [trade_valid_eq req s user a hu hamt ha hmin]
    constructor
    · rw [getUser_updLegacy_self, getUser_appendTrade, hu]
      rfl
    · intro v c
      rw [getBal_updLegacy, getBal_appendTrade]
  · intro did s dep user hfind hu
    rw [depositStatus_approved_eq did s dep hfind]
    constructor
    · rw [getUser_updLegacy_self, getUser_depStatusMap, hu]
      rfl
    · intro v c
      rw [getBal_updLegacy, getBal_depStatusMap]
  · intro wid s w user hfind hpend hcur hu
    rw [withdrawStatus_rejected_usdt_eq wid s w hfind hpend hcur]
    constructor
    · rw [getUser_updLegacy_self, getUser_wdStatusMap, hu]
      rfl
    · intro v c
      rw [getBal_updLegacy, getBal_wdStatusMap]

/-- Witness for C4 amended: each of the five credit paths applied at a
concrete store, showing dual update for conversion and admin credit and
legacy-only update for trade profit, deposit approval and withdrawal
refund. -/
theorem c4_usdt_credit_amended_witness :
    (getUser (convert pricesFallback "alice" ⟨"BTC", some "USDT", 1⟩ none
          (mkSt 0 [] [(("alice", "BTC"), 2), (("alice", "USDT"), 7)])).2 "alice"
        = some { mkUser 0 [] with balance := (mkUser 0 []).balance + 1 * 95000 / 1 }
      ∧ getBal (convert pricesFallback "alice" ⟨"BTC", some "USDT", 1⟩ none
          (mkSt 0 [] [(("alice", "BTC"), 2), (("alice", "USDT"), 7)])).2 "alice" "USDT"
        = some (7 + 1 * 95000 / 1))
    ∧ (getUser (addCoinBalance "alice" "USDT" 5
          (mkSt 0 [] [(("alice", "USDT"), 7)])).2 "alice"
        = some { mkUser 0 [] with balance := (mkUser 0 []).balance + 5 }
      ∧ getBal (addCoinBalance "alice" "USDT" 5
          (mkSt 0 [] [(("alice", "USDT"), 7)])).2 "alice" "USDT"
        = some ((getBal (mkSt 0 [] [(("alice", "USDT"), 7)]) "alice" "USDT").getD 0 + 5))
    ∧ (getUser (trade ⟨"alice", "BTC", "short", some 100, none, some 50⟩ none
          (mkSt 1000 [] [(("alice", "USDT"), 7)])).2 "alice"
        = some { mkUser 1000 [] with balance := (mkUser 1000 []).balance +
            (if ("short" : String) = (mkSt 1000 [] [(("alice", "USDT"), 7)]).winSide
             then 100 * (resolvePercent (mkUser 1000 [])
               ⟨"alice", "BTC", "short", some 100, none, some 50⟩ / 100)
             else -100) }
      ∧ getBal (trade ⟨"alice", "BTC", "short", some 100, none, some 50⟩ none
          (mkSt 1000 [] [(("alice", "USDT"), 7)])).2 "alice" "USDT"
        = getBal (mkSt 1000 [] [(("alice", "USDT"), 7)]) "alice" "USDT")
    ∧ (getUser (depositStatus 1 "approved" (mkStFull 3 [(("alice", "USDT"), 7)]
          [{ did := 1, username := "alice", currency := "USDT", network := "TRC20",
             amount := 50, status := "pending" }] [])) "alice"
        = some { mkUser 3 [] with balance := (mkUser 3 []).balance + 50 }
      ∧ getBal (depositStatus 1 "approved" (mkStFull 3 [(("alice", "USDT"), 7)]
          [{ did := 1, username := "alice", currency := "USDT", network := "TRC20",
             amount := 50, status := "pending" }] [])) "alice" "USDT"
        = getBal (mkStFull 3 [(("alice", "USDT"), 7)]
          [{ did := 1, username := "alice", currency := "USDT", network := "TRC20",
             amount := 50, status := "pending" }] []) "alice" "USDT")
    ∧ (getUser (withdrawStatus 1 "rejected" (mkStFull 3 [(("alice", "USDT"), 7)] []
          [{ wid := 1, username := "alice", currency := "USDT", network := "TRC20",
             amount := 50, address := "addrX", status := "pending" }])).2 "alice"
        = some { mkUser 3 [] with balance := (mkUser 3 []).balance + 50 }
      ∧ getBal (withdrawStatus 1 "rejected" (mkStFull 3 [(("alice", "USDT"), 7)] []
          [{ wid := 1, username := "alice", currency := "USDT", network := "TRC20",
             amount := 50, address := "addrX", status := "pending" }])).2 "alice" "USDT"
        = getBal (mkStFull 3 [(("alice", "USDT"), 7)] []
          [{ wid := 1, username := "alice", currency := "USDT", network := "TRC20",
             amount := 50, address := "addrX", status := "pending" }]) "alice" "USDT") :=
  ⟨⟨(c4_usdt_credit_amended.1 pricesFallback
        (mkSt 0 [] [(("alice", "BTC"), 2), (("alice", "USDT"), 7)]) "alice" "BTC"
        1 95000 1 (mkUser 0 []) 2 (by decide) (by decide) (by norm_num)
        (by rfl) (by norm_num) (by rfl) (by norm_num) (by rfl) (by rfl)
        (by norm_num)).1,
    (c4_usdt_credit_amended.1 pricesFallback
        (mkSt 0 [] [(("alice", "BTC"), 2), (("alice", "USDT"), 7)]) "alice" "BTC"
        1 95000 1 (mkUser 0 []) 2 (by decide) (by decide) (by norm_num)
        (by rfl) (by norm_num) (by rfl) (by norm_num) (by rfl) (by rfl)
        (by norm_num)).2 7 (by rfl)⟩,
   ⟨(c4_usdt_credit_amended.2.1 (mkSt 0 [] [(("alice", "USDT"), 7)]) "alice" 5
        (mkUser 0 []) (by decide) (by rfl)).1,
    (c4_usdt_credit_amended.2.1 (mkSt 0 [] [(("alice", "USDT"), 7)]) "alice" 5
        (mkUser 0 []) (by decide) (by rfl)).2⟩,
   ⟨(c4_usdt_credit_amended.2.2.1 ⟨"alice", "BTC", "short", some 100, none, some 50⟩
        (mkSt 1000 [] [(("alice", "USDT"), 7)]) (mkUser 1000 []) 100 (by rfl) rfl
        (by norm_num) (by decide)).1,
    (c4_usdt_credit_amended.2.2.1 ⟨"alice", "BTC", "short", some 100, none, some 50⟩
        (mkSt 1000 [] [(("alice", "USDT"), 7)]) (mkUser 1000 []) 100 (by rfl) rfl
        (by norm_num) (by decide)).2 "alice" "USDT"⟩,
   ⟨(c4_usdt_credit_amended.2.2.2.1 1 (mkStFull 3 [(("alice", "USDT"), 7)]
        [{ did := 1, username := "alice", currency := "USDT", network := "TRC20",
           amount := 50, status := "pending" }] [])
        { did := 1, username := "alice", currency := "USDT", network := "TRC20",
          amount := 50, status := "pending" } (mkUser 3 []) (by rfl) (by rfl)).1,
    (c4_usdt_credit_amended.2.2.2.1 1 (mkStFull 3 [(("alice", "USDT"), 7)]
        [{ did := 1, username := "alice", currency := "USDT", network := "TRC20",
           amount := 50, status := "pending" }] [])
        { did := 1, username := "alice", currency := "USDT", network := "TRC20",
          amount := 50, status := "pending" } (mkUser 3 []) (by rfl) (by rfl)).2
        "alice" "USDT"⟩,
   ⟨(c4_usdt_credit_amended.2.2.2.2 1 (mkStFull 3 [(("alice", "USDT"), 7)] []
        [{ wid := 1, username := "alice", currency := "USDT", network := "TRC20",
           amount := 50, address := "addrX", status := "pending" }])
        { wid := 1, username := "alice", currency := "USDT", network := "TRC20",
          amount := 50, address := "addrX", status := "pending" }
        (mkUser 3 []) (by rfl) (by rfl) (by rfl) (by rfl)).1,
    (c4_usdt_credit_amended.2.2.2.2 1 (mkStFull 3 [(("alice", "USDT"), 7)] []
        [{ wid := 1, username := "alice", currency := "USDT", network := "TRC20",
           amount := 50, address := "addrX", status := "pending" }])
        { wid := 1, username := "alice", currency := "USDT", network := "TRC20",
          amount := 50, address := "addrX", status := "pending" }
        (mkUser 3 []) (by rfl) (by rfl) (by rfl) (by rfl)).2 "alice" "USDT"⟩⟩

/- ======================= Claim C5 ======================= -/

theorem getUser_insertWithdrawal (s : St) (u v : String) (req : WithdrawReq) :
    getUser (insertWithdrawal s u req).2 v = getUser s v := rfl

theorem getBal_insertWithdrawal (s : St) (u : String) (req : WithdrawReq) (v w : String) :
    getBal (insertWithdrawal s u req).2 v w = getBal s v w := rfl

theorem find_wd_append (l : List WithdrawalRec) (r : WithdrawalRec)
    (hfresh : ∀ x ∈ l, x.wid ≠ r.wid) :
    (l ++ [r]).find? (fun x => decide (x.wid = r.wid)) = some r := by
  rw [List.find?_append]
  have h1 : l.find? (fun x => decide (x.wid = r.wid)) = none := by
    rw [List.find?_eq_none]
    intro x hx
    simpa using hfresh x hx
  rw [h1]
  simp

theorem withdraw_coin_eq (u : String) (req : WithdrawReq) (s : St) (b : ℚ)
    (hnf : isFrozen s u = false)
    (hc : req.currency ≠ "") (hcu : req.currency ≠ "USDT") (hn : req.network ≠ "")
    (ha0 : req.amount ≠ 0) (had : req.address ≠ "")
    (hb : getBal s u req.currency = some b) (hle : req.amount ≤ b) :
    withdraw u req none s
      = (.pending s.nextWid,
         (insertWithdrawal (updEntry s u req.currency (-req.amount)) u req).2) := by
  rw [withdraw]
  rw [if_neg (by simp [hnf])]
  rw [if_neg (by push_neg; exact ⟨hc, hn, ha0, had⟩)]
  have hd : withdrawDeduct s u req
      = some (fun t => updEntry t u req.currency (-req.amount)) := by
    rw [withdrawDeduct, if_neg hcu]
    simp only [hb]
    rw [if_pos hle]
  simp only [hd]
  rfl

theorem withdraw_usdt_entry_eq (u : String) (req : WithdrawReq) (s : St) (b : ℚ)
    (hnf : isFrozen s u = false)
    (hcu : req.currency = "USDT") (hn : req.network ≠ "")
    (ha0 : req.amount ≠ 0) (had : req.address ≠ "")
    (hb : getBal s u "USDT" = some b) (hle : req.amount ≤ b) :
    withdraw u req none s
      = (.pending s.nextWid,
         (insertWithdrawal (updEntry s u "USDT" (-req.amount)) u req).2) := by
  rw [withdraw]
  rw [if_neg (by simp [hnf])]
  rw [if_neg (by push_neg; exact ⟨by rw [hcu]; decide, hn, ha0, had⟩)]
  have hd : withdrawDeduct s u req = some (fun t => updEntry t u "USDT" (-req.amount)) := by
    rw [withdrawDeduct, if_pos hcu]
    simp only [hb]
    rw [if_pos hle]
  simp only [hd]
  rfl

theorem withdraw_usdt_legacy_eq (u : String) (req : WithdrawReq) (s : St) (x : UserRec)
    (hcu : req.currency = "USDT") (hn : req.network ≠ "")
    (ha0 : req.amount ≠ 0) (had : req.address ≠ "")
    (hu : getUser s u = some x) (hst : x.status ≠ "frozen")
    (hb : getBal s u "USDT" = none) (hle : req.amount ≤ x.balance) :
    withdraw u req none s
      = (.pending s.nextWid,
         (insertWithdrawal (updLegacy s u (-req.amount)) u req).2) := by
  have hnf : isFrozen s u = false := by
    rw [isFrozen, hu]
    simpa using hst
  rw [withdraw]
  rw [if_neg (by simp [hnf])]
  rw [if_neg (by push_neg; exact ⟨by rw [hcu]; decide, hn, ha0, had⟩)]
  have hd : withdrawDeduct s u req = some (fun t => updLegacy t u (-req.amount)) := by
    rw [withdrawDeduct, if_pos hcu]
    simp only [hb, hu]
    rw [if_pos hle]
  simp only [hd]
  rfl

/-- Counterexample to C5 as stated: "alice" has legacy balance 0 and a
USDT entry of 100; withdrawing 50 USDT deducts from the USDT entry
(100 becomes 50), but the rejection refunds to the legacy scalar
(0 becomes 50) — the post-rejection state (legacy 50, entry 50) is not
the pre-withdrawal state (legacy 0, entry 100). -/
theorem c5_escrow_counterexample :
    getBal (withdrawStatus 1 "rejected"
        (withdraw "alice" ⟨"USDT", "TRC20", 50, "addr"⟩ none
          (mkSt 0 [] [(("alice", "USDT"), 100)])).2).2 "alice" "USDT" = some 50
    ∧ (getUser (withdrawStatus 1 "rejected"
        (withdraw "alice" ⟨"USDT", "TRC20", 50, "addr"⟩ none
          (mkSt 0 [] [(("alice", "USDT"), 100)])).2).2 "alice").map UserRec.balance
        = some 50
    ∧ getBal (mkSt 0 [] [(("alice", "USDT"), 100)]) "alice" "USDT" = some 100
    ∧ (getUser (mkSt 0 [] [(("alice", "USDT"), 100)]) "alice").map UserRec.balance
        = some 0 := by
  have hw := withdraw_usdt_entry_eq "alice" ⟨"USDT", "TRC20", 50, "addr"⟩
    (mkSt 0 [] [(("alice", "USDT"), 100)]) 100 (by rfl) rfl (by decide)
    (by norm_num) (by decide) (by rfl) (by norm_num)
  have h2 : (withdraw "alice" ⟨"USDT", "TRC20", 50, "addr"⟩ none
      (mkSt 0 [] [(("alice", "USDT"), 100)])).2
      = (insertWithdrawal (updEntry (mkSt 0 [] [(("alice", "USDT"), 100)])
          "alice" "USDT" (-50)) "alice" ⟨"USDT", "TRC20", 50, "addr"⟩).2 := by
    rw [hw]
  rw [h2]
  have hfind : ((insertWithdrawal (updEntry (mkSt 0 [] [(("alice", "USDT"), 100)])
      "alice" "USDT" (-50)) "alice" ⟨"USDT", "TRC20", 50, "addr"⟩).2).withdrawals.find?
        (fun x => decide (x.wid = 1))
      = some { wid := 1, username := "alice", currency := "USDT", network := "TRC20",
               amount := 50, address := "addr", status := "pending" } := rfl
  have hws := withdrawStatus_rejected_usdt_eq 1
    ((insertWithdrawal (updEntry (mkSt 0 [] [(("alice", "USDT"), 100)])
        "alice" "USDT" (-50)) "alice" ⟨"USDT", "TRC20", 50, "addr"⟩).2)
    { wid := 1, username := "alice", currency := "USDT", network := "TRC20",
      amount := 50, address := "addr", status := "pending" } hfind rfl rfl
  have h3 : (withdrawStatus 1 "rejected"
      ((insertWithdrawal (updEntry (mkSt 0 [] [(("alice", "USDT"), 100)])
          "alice" "USDT" (-50)) "alice" ⟨"USDT", "TRC20", 50, "addr"⟩).2)).2
      = updLegacy (wdStatusMap ((insertWithdrawal (updEntry
          (mkSt 0 [] [(("alice", "USDT"), 100)]) "alice" "USDT" (-50)) "alice"
          ⟨"USDT", "TRC20", 50, "addr"⟩).2) 1 "rejected") "alice" 50 := by
    rw [hws]
  rw [h3]
  refine ⟨?_, ?_, by rfl, by rfl⟩
  · rw [getBal_updLegacy, getBal_wdStatusMap, getBal_insertWithdrawal,
      getBal_updEntry_self]
    have : getBal (mkSt 0 [] [(("alice", "USDT"), 100)]) "alice" "USDT"
        = some 100 := rfl
    rw [this]
    simp
    norm_num
  · rw [getUser_updLegacy_self, getUser_wdStatusMap, getUser_insertWithdrawal,
      getUser_updEntry]
    have : getUser (mkSt 0 [] [(("alice", "USDT"), 100)]) "alice"
        = some (mkUser 0 []) := rfl
    rw [this]
    simp [mkUser]

/-- C5 amended: submitting a withdrawal deducts the amount immediately
(from the per-currency entry when it is present and sufficient, otherwise
for USDT from the legacy scalar); approving a pending withdrawal changes
no balance; rejecting one refunds the amount to the per-currency entry for
a non-USDT currency — restoring the pre-withdrawal balances exactly — but
for USDT the refund always goes to the legacy scalar, so the
pre-withdrawal state is restored exactly only when the escrow was deducted
from the legacy scalar (no USDT entry existed); when the escrow came from
the USDT entry the refund lands on the legacy scalar instead (the
counterexample). -/
theorem c5_escrow_amended :
    (∀ wid s w, s.withdrawals.find? (fun x => decide (x.wid = wid)) = some w →
        w.status = "pending" →
        (withdrawStatus wid "approved" s).2.users = s.users
        ∧ (withdrawStatus wid "approved" s).2.balances = s.balances)
    ∧ (∀ u req s b, isFrozen s u = false →
        req.currency ≠ "" → req.currency ≠ "USDT" → req.network ≠ "" →
        req.amount ≠ 0 → req.address ≠ "" →
        getBal s u req.currency = some b → req.amount ≤ b →
        (∀ x ∈ s.withdrawals, x.wid ≠ s.nextWid) →
        (withdraw u req none s).1 = .pending s.nextWid
        ∧ getBal (withdraw u req none s).2 u req.currency = some (b - req.amount)
        ∧ (withdrawStatus s.nextWid "rejected" (withdraw u req none s).2).2.balances
            = s.balances
        ∧ (withdrawStatus s.nextWid "rejected" (withdraw u req none s).2).2.users
            = s.users)
    ∧ (∀ u req s x, req.currency = "USDT" → req.network ≠ "" →
        req.amount ≠ 0 → req.address ≠ "" →
        getUser s u = some x → x.status ≠ "frozen" →
        getBal s u "USDT" = none → req.amount ≤ x.balance →
        (∀ y ∈ s.withdrawals, y.wid ≠ s.nextWid) →
        (withdraw u req none s).1 = .pending s.nextWid
        ∧ getUser (withdraw u req none s).2 u
            = some { x with balance := x.balance - req.amount }
        ∧ (withdrawStatus s.nextWid "rejected" (withdraw u req none s).2).2.users
            = s.users
        ∧ (withdrawStatus s.nextWid "rejected" (withdraw u req none s).2).2.balances
            = s.balances) := by
  refine ⟨?_, ?_, ?_⟩
  · intro wid s w hfind hpend
    rw [withdrawStatus_approved_eq wid s w hfind hpend]
    exact ⟨rfl, rfl⟩
  · intro u req s b hnf hc hcu hn ha0 had hb hle hfresh
    rw [withdraw_coin_eq u req s b hnf hc hcu hn ha0 had hb hle]
    have hfind := find_wd_append s.withdrawals
      { wid := s.nextWid, username := u, currency := req.currency,
        network := req.network, amount := req.amount, address := req.address,
        status := "pending" } (by intro y hy; simpa using hfresh y hy)
    have hws := withdrawStatus_rejected_coin_eq s.nextWid
      ((insertWithdrawal (updEntry s u req.currency (-req.amount)) u req).2)
      { wid := s.nextWid, username := u, currency := req.currency,
        network := req.network, amount := req.amount, address := req.address,
        status := "pending" } hfind rfl hcu
    refine ⟨rfl, ?_, ?_, ?_⟩
    · rw [getBal_insertWithdrawal, getBal_updEntry_self, hb]
      simp [sub_eq_add_neg]
    · rw [hws]
      have hb1 : lookupA (wdStatusMap ((insertWithdrawal
          (updEntry s u req.currency (-req.amount)) u req).2) s.nextWid
            "rejected").balances (u, req.currency) = some (b + -req.amount) := by
        have hb2 : lookupA s.balances (u, req.currency) = some b := hb
        have hb3 : (wdStatusMap ((insertWithdrawal
            (updEntry s u req.currency (-req.amount)) u req).2) s.nextWid
              "rejected").balances
            = updAssoc s.balances (u, req.currency) (fun v => v + -req.amount) := rfl
        rw [hb3, lookupA_updAssoc_self, hb2]
        rfl
      rw [upsertEntry, if_pos (by rw [hb1]; rfl)]
      show updAssoc (updAssoc s.balances (u, req.currency) (fun v => v + -req.amount))
          (u, req.currency) (fun v => v + req.amount) = s.balances
      exact updAssoc_cancel s.balances (u, req.currency) _ _ (fun v => by ring)
    · rw [hws, users_upsertEntry]
      rfl
  · intro u req s x hcu hn ha0 had hu hst hb hle hfresh
    rw [withdraw_usdt_legacy_eq u req s x hcu hn ha0 had hu hst hb hle]
    have hfind := find_wd_append s.withdrawals
      { wid := s.nextWid, username := u, currency := req.currency,
        network := req.network, amount := req.amount, address := req.address,
        status := "pending" } (by intro y hy; simpa using hfresh y hy)
    have hws := withdrawStatus_rejected_usdt_eq s.nextWid
      ((insertWithdrawal (updLegacy s u (-req.amount)) u req).2)
      { wid := s.nextWid, username := u, currency := req.currency,
        network := req.network, amount := req.amount, address := req.address,
        status := "pending" } hfind rfl hcu
    refine ⟨rfl, ?_, ?_, ?_⟩
    · rw [getUser_insertWithdrawal, getUser_updLegacy_self, hu]
      simp [sub_eq_add_neg]
    · rw [hws]
      show updAssoc (updAssoc s.users u
          (fun y => { y with balance := y.balance + -req.amount })) u
          (fun y => { y with balance := y.balance + req.amount }) = s.users
      refine updAssoc_cancel s.users u _ _ (fun y => ?_)
      cases y
      simp only [UserRec.mk.injEq, eq_self_iff_true, and_true]
      ring
    · rw [hws]
      rfl

/-- Witness for C5 amended: approving a pending withdrawal leaves users
and balances unchanged; a 5 BTC withdrawal against a 7 BTC entry deducts
to 2 and a rejection restores the original balances; a 5 USDT withdrawal
with no USDT entry deducts the legacy scalar (10 to 5) and a rejection
restores it. -/
theorem c5_escrow_amended_witness :
    ((withdrawStatus 1 "approved" (mkStFull 3 [] []
        [{ wid := 1, username := "alice", currency := "USDT", network := "TRC20",
           amount := 50, address := "addrX", status := "pending" }])).2.users
        = (mkStFull 3 [] []
        [{ wid := 1, username := "alice", currency := "USDT", network := "TRC20",
           amount := 50, address := "addrX", status := "pending" }]).users
      ∧ (withdrawStatus 1 "approved" (mkStFull 3 [] []
        [{ wid := 1, username := "alice", currency := "USDT", network := "TRC20",
           amount := 50, address := "addrX", status := "pending" }])).2.balances
        = (mkStFull 3 [] []
        [{ wid := 1, username := "alice", currency := "USDT", network := "TRC20",
           amount := 50, address := "addrX", status := "pending" }]).balances)
    ∧ ((withdraw "alice" ⟨"BTC", "TRC20", 5, "addr"⟩ none
          (mkSt 0 [] [(("alice", "BTC"), 7)])).1
        = .pending (mkSt 0 [] [(("alice", "BTC"), 7)]).nextWid
      ∧ getBal (withdraw "alice" ⟨"BTC", "TRC20", 5, "addr"⟩ none
          (mkSt 0 [] [(("alice", "BTC"), 7)])).2 "alice" "BTC" = some (7 - 5)
      ∧ (withdrawStatus (mkSt 0 [] [(("alice", "BTC"), 7)]).nextWid "rejected"
          (withdraw "alice" ⟨"BTC", "TRC20", 5, "addr"⟩ none
            (mkSt 0 [] [(("alice", "BTC"), 7)])).2).2.balances
        = (mkSt 0 [] [(("alice", "BTC"), 7)]).balances
      ∧ (withdrawStatus (mkSt 0 [] [(("alice", "BTC"), 7)]).nextWid "rejected"
          (withdraw "alice" ⟨"BTC", "TRC20", 5, "addr"⟩ none
            (mkSt 0 [] [(("alice", "BTC"), 7)])).2).2.users
        = (mkSt 0 [] [(("alice", "BTC"), 7)]).users)
    ∧ ((withdraw "alice" ⟨"USDT", "TRC20", 5, "addr"⟩ none (mkSt 10 [] [])).1
        = .pending (mkSt 10 [] []).nextWid
      ∧ getUser (withdraw "alice" ⟨"USDT", "TRC20", 5, "addr"⟩ none
          (mkSt 10 [] [])).2 "alice"
        = some { mkUser 10 [] with balance := (mkUser 10 []).balance - 5 }
      ∧ (withdrawStatus (mkSt 10 [] []).nextWid "rejected"
          (withdraw "alice" ⟨"USDT", "TRC20", 5, "addr"⟩ none
            (mkSt 10 [] [])).2).2.users = (mkSt 10 [] []).users
      ∧ (withdrawStatus (mkSt 10 [] []).nextWid "rejected"
          (withdraw "alice" ⟨"USDT", "TRC20", 5, "addr"⟩ none
            (mkSt 10 [] [])).2).2.balances = (mkSt 10 [] []).balances) :=
  ⟨c5_escrow_amended.1 1 (mkStFull 3 [] []
      [{ wid := 1, username := "alice", currency := "USDT", network := "TRC20",
         amount := 50, address := "addrX", status := "pending" }])
      { wid := 1, username := "alice", currency := "USDT", network := "TRC20",
        amount := 50, address := "addrX", status := "pending" } (by rfl) (by rfl),
   c5_escrow_amended.2.1 "alice" ⟨"BTC", "TRC20", 5, "addr"⟩
      (mkSt 0 [] [(("alice", "BTC"), 7)]) 7 (by rfl) (by decide) (by decide)
      (by decide) (by norm_num) (by decide) (by rfl) (by norm_num)
      (by intro y hy; simp [mkSt] at hy),
   c5_escrow_amended.2.2 "alice" ⟨"USDT", "TRC20", 5, "addr"⟩ (mkSt 10 [] [])
      (mkUser 10 []) (by rfl) (by decide) (by norm_num) (by decide) (by rfl)
      (by decide) (by rfl) (by norm_num [mkUser])
      (by intro y hy; simp [mkSt] at hy)⟩

/- ======================= Claim C9 ======================= -/

/-- C9 code-bug exhibit: the withdraw endpoint validates `amount` only by
truthiness (`!amount`), so a strictly negative amount of -5 BTC passes
validation, trivially satisfies the sufficiency check `balance >= -5`,
and is "deducted" — increasing the 100 BTC balance to 105 — while a
pending withdrawal record for -5 is created; the deposit endpoint
performs no amount validation at all and happily records a pending
deposit of -5. -/
theorem c9_negative_withdraw :
    (withdraw "alice" ⟨"BTC", "TRC20", -5, "addr"⟩ none
        (mkSt 0 [] [(("alice", "BTC"), 100)])).1 = .pending 1
    ∧ getBal (withdraw "alice" ⟨"BTC", "TRC20", -5, "addr"⟩ none
        (mkSt 0 [] [(("alice", "BTC"), 100)])).2 "alice" "BTC" = some 105
    ∧ (withdraw "alice" ⟨"BTC", "TRC20", -5, "addr"⟩ none
        (mkSt 0 [] [(("alice", "BTC"), 100)])).2.withdrawals
      = [{ wid := 1, username := "alice", currency := "BTC", network := "TRC20",
           amount := -5, address := "addr", status := "pending" }]
    ∧ (deposit "alice" ⟨"USDT", "TRC20", -5⟩ (mkSt 0 [] [])).1 = .pending 1
    ∧ (deposit "alice" ⟨"USDT", "TRC20", -5⟩ (mkSt 0 [] [])).2.deposits
      = [{ did := 1, username := "alice", currency := "USDT", network := "TRC20",
           amount := -5, status := "pending" }] := by
  have hw := withdraw_coin_eq "alice" ⟨"BTC", "TRC20", -5, "addr"⟩
    (mkSt 0 [] [(("alice", "BTC"), 100)]) 100 (by rfl) (by decide) (by decide)
    (by decide) (by norm_num) (by decide) (by rfl) (by norm_num)
  rw [hw]
  refine ⟨rfl, ?_, rfl, rfl, rfl⟩
  rw [getBal_insertWithdrawal, getBal_updEntry_self]
  have hg : getBal (mkSt 0 [] [(("alice", "BTC"), 100)]) "alice" "BTC"
      = some 100 := rfl
  rw [hg]
  show some ((100 : ℚ) + -(-5)) = some 105
  norm_num
